import Mathlib

/-!
# Verification of the file-ingestion pipeline (dagster-poc)

A shallow embedding, in Lean 4, of the core decision-and-processing logic of
the TypeScript file-ingestion pipeline:

* the task-size classifier (`worker/src/s3-chunked-reader.ts` and
  `dagster_ts/src/resources.ts`),
* the chunked remote reader `processInChunks` (`worker/src/s3-chunked-reader.ts`),
* the column/structure validator and the enrichment handler
  (`worker/src/enrichment-handler.ts`, `column-validator.ts`),
* the DynamoDB ingest-state manager (`dynamo-state.ts`),
* the worker file processor (`worker/src/index.ts`),
* the SQS push sensors and the S3 poll sensor with its state-store dedup
  check, and the orchestrator loop with its in-memory run-key dedup set.

External effects (S3 fetches, DynamoDB reads, `JSON.parse`, `Date.parse`,
`decodeURIComponent`, clocks) are modelled as explicit environment oracles;
machine integers are modelled as `Nat` (JS numbers are exact on these ranges)
and the float division in the size classifier as exact `Rat` division, which
agrees with IEEE doubles for all byte counts below 2^53 (division by the
power of two 2^20 is exact on representable inputs).
-/

namespace Ingestion

/-! ## Task-size classification

`S3ChunkedReader.getRecommendedTaskSize` (worker/src/s3-chunked-reader.ts,
lines 63-70) and `S3Resource.getRecommendedTaskSize`
(dagster_ts/src/resources.ts, lines 176-183).  The source computes
`sizeMB = fileSizeBytes / (1024 * 1024)` in floating point and compares with
50 / 200 / 500; for byte counts < 2^53 the double computation is exact, so
rational division is a faithful model. -/

/-- `S3ChunkedReader.getRecommendedTaskSize` from worker/src/s3-chunked-reader.ts. -/
def workerGetRecommendedTaskSize (fileSizeBytes : ℕ) : String :=
  if ((fileSizeBytes : ℚ) / (1024 * 1024) < 50) then "small"
  else if ((fileSizeBytes : ℚ) / (1024 * 1024) < 200) then "medium"
  else if ((fileSizeBytes : ℚ) / (1024 * 1024) < 500) then "large"
  else "xlarge"

/-- `S3Resource.getRecommendedTaskSize` from dagster_ts/src/resources.ts. -/
def resourceGetRecommendedTaskSize (fileSizeBytes : ℕ) : String :=
  if ((fileSizeBytes : ℚ) / (1024 * 1024) < 50) then "lambda"
  else if ((fileSizeBytes : ℚ) / (1024 * 1024) < 200) then "medium"
  else if ((fileSizeBytes : ℚ) / (1024 * 1024) < 500) then "large"
  else "xlarge"

lemma cond50 (n : ℕ) : ((n : ℚ) / (1024 * 1024) < 50) ↔ n < 52428800 := by
  rw [div_lt_iff₀ (by norm_num : (0 : ℚ) < 1024 * 1024)]
  rw [show ((50 : ℚ) * (1024 * 1024)) = ((52428800 : ℕ) : ℚ) by norm_num]
  exact Nat.cast_lt

lemma cond200 (n : ℕ) : ((n : ℚ) / (1024 * 1024) < 200) ↔ n < 209715200 := by
  rw [div_lt_iff₀ (by norm_num : (0 : ℚ) < 1024 * 1024)]
  rw [show ((200 : ℚ) * (1024 * 1024)) = ((209715200 : ℕ) : ℚ) by norm_num]
  exact Nat.cast_lt

lemma cond500 (n : ℕ) : ((n : ℚ) / (1024 * 1024) < 500) ↔ n < 524288000 := by
  rw [div_lt_iff₀ (by norm_num : (0 : ℚ) < 1024 * 1024)]
  rw [show ((500 : ℚ) * (1024 * 1024)) = ((524288000 : ℕ) : ℚ) by norm_num]
  exact Nat.cast_lt

/-- C3: the task-size classifier is a pure function of byte size with tiers
`< 50MB → small/lambda`, `< 200MB → medium`, `< 500MB → large`,
`≥ 500MB → xlarge`; exact 50MB / 200MB / 500MB fall into the higher tier;
and the worker copy and the orchestrator-resource copy use the same tier
boundaries (they differ only in the label of the lowest tier:
`"small"` vs `"lambda"`). -/
theorem c3_taskSize_tiers (n : ℕ) :
    (workerGetRecommendedTaskSize n =
      (if n < 50 * 1048576 then "small"
       else if n < 200 * 1048576 then "medium"
       else if n < 500 * 1048576 then "large"
       else "xlarge"))
    ∧ (resourceGetRecommendedTaskSize n =
        (if n < 50 * 1048576 then "lambda" else workerGetRecommendedTaskSize n))
    ∧ workerGetRecommendedTaskSize (50 * 1048576) = "medium"
    ∧ workerGetRecommendedTaskSize (200 * 1048576) = "large"
    ∧ workerGetRecommendedTaskSize (500 * 1048576) = "xlarge"
    ∧ resourceGetRecommendedTaskSize (50 * 1048576) = "medium"
    ∧ resourceGetRecommendedTaskSize (200 * 1048576) = "large"
    ∧ resourceGetRecommendedTaskSize (500 * 1048576) = "xlarge" := by
  refine ⟨?_, ?_, ?_, ?_, ?_, ?_, ?_, ?_⟩
  · simp only [workerGetRecommendedTaskSize, cond50 n, cond200 n, cond500 n]
  · simp only [workerGetRecommendedTaskSize, resourceGetRecommendedTaskSize,
      cond50 n, cond200 n, cond500 n]
    by_cases h : n < 52428800 <;> simp [h]
  · norm_num [workerGetRecommendedTaskSize]
  · norm_num [workerGetRecommendedTaskSize]
  · norm_num [workerGetRecommendedTaskSize]
  · norm_num [resourceGetRecommendedTaskSize]
  · norm_num [resourceGetRecommendedTaskSize]
  · norm_num [resourceGetRecommendedTaskSize]

/-! ## Chunked remote reader

`S3ChunkedReader.processInChunks` (worker/src/s3-chunked-reader.ts, lines
75-119).  The loop derives `chunkSize = chunkSizeMB * 1024 * 1024`,
`totalChunks = Math.ceil(size / chunkSize)`, and for each index `i` fetches
the byte range `[i*chunkSize, min(i*chunkSize + chunkSize - 1, size - 1)]`,
invoking the processor callback after a successful fetch; a fetch error is
logged and rethrown, aborting the loop.  The S3 range fetch is an oracle
`fetch : ℕ → Except String Unit` (per chunk index; an `Except.error`
models the rethrown exception); a successful range fetch is assumed to
return exactly the requested bytes, so the callback's data length is the
range's size. -/

/-- `ChunkInfo` from worker/src/s3-chunked-reader.ts. -/
structure ChunkInfo where
  chunkIndex : ℕ
  totalChunks : ℕ
  startByte : ℕ
  endByte : ℕ
  size : ℕ
deriving Repr, DecidableEq

/-- `Math.ceil(size / chunkSize)` on naturals. -/
def totalChunksOf (fileSize chunkSize : ℕ) : ℕ :=
  (fileSize + chunkSize - 1) / chunkSize

/-- The `ChunkInfo` built for loop index `i` in `processInChunks`. -/
def mkChunkInfo (fileSize chunkSize i : ℕ) : ChunkInfo :=
  let startByte := i * chunkSize
  let endByte := min (startByte + chunkSize - 1) (fileSize - 1)
  { chunkIndex := i
    totalChunks := totalChunksOf fileSize chunkSize
    startByte := startByte
    endByte := endByte
    size := endByte - startByte + 1 }

/-- The sequential fetch-and-process loop of `processInChunks` over the given
chunk indices: each successful fetch invokes the callback with its
`ChunkInfo`; a fetch error aborts, returning the error message.  Returns the
chunks for which the callback was invoked, in invocation order, and
`none` on completion or `some msg` on abort. -/
def chunkLoop (fileSize chunkSize : ℕ) (fetch : ℕ → Except String Unit) :
    List ℕ → List ChunkInfo × Option String
  | [] => ([], none)
  | i :: rest =>
    match fetch i with
    | Except.ok _ =>
      let r := chunkLoop fileSize chunkSize fetch rest
      (mkChunkInfo fileSize chunkSize i :: r.1, r.2)
    | Except.error e => ([], some e)

/-- `S3ChunkedReader.processInChunks`: iterates `i = 0 .. totalChunks-1`.
`chunkSize` is in bytes (the source computes it as
`this.chunkSizeMB * 1024 * 1024`). -/
def processInChunks (fileSize chunkSize : ℕ) (fetch : ℕ → Except String Unit) :
    List ChunkInfo × Option String :=
  chunkLoop fileSize chunkSize fetch (List.range (totalChunksOf fileSize chunkSize))

lemma chunkLoop_all_ok (fileSize chunkSize : ℕ) (fetch : ℕ → Except String Unit)
    (l : List ℕ) (h : ∀ i ∈ l, fetch i = Except.ok ()) :
    chunkLoop fileSize chunkSize fetch l = (l.map (mkChunkInfo fileSize chunkSize), none) := by
  induction l with
  | nil => rfl
  | cons i rest ih =>
    have hi : fetch i = Except.ok () := h i (List.mem_cons_self i rest)
    simp only [chunkLoop, hi, List.map_cons]
    rw [ih (fun j hj => h j (List.mem_cons_of_mem i hj))]

lemma chunkLoop_append (fileSize chunkSize : ℕ) (fetch : ℕ → Except String Unit)
    (l₁ l₂ : List ℕ) (h : ∀ i ∈ l₁, fetch i = Except.ok ()) :
    chunkLoop fileSize chunkSize fetch (l₁ ++ l₂) =
      (l₁.map (mkChunkInfo fileSize chunkSize) ++ (chunkLoop fileSize chunkSize fetch l₂).1,
       (chunkLoop fileSize chunkSize fetch l₂).2) := by
  induction l₁ with
  | nil => simp [chunkLoop]
  | cons i rest ih =>
    have hi : fetch i = Except.ok () := h i (List.mem_cons_self i rest)
    simp only [List.cons_append, chunkLoop, hi, List.map_cons, List.cons_append, List.append_eq]
    rw [ih (fun j hj => h j (List.mem_cons_of_mem i hj))]

lemma lt_totalChunks_iff (fileSize chunkSize i : ℕ) (hC : 0 < chunkSize) :
    i < totalChunksOf fileSize chunkSize ↔ i * chunkSize + 1 ≤ fileSize := by
  unfold totalChunksOf
  rw [Nat.lt_iff_add_one_le, Nat.le_div_iff_mul_le hC]
  have hx : (i + 1) * chunkSize = i * chunkSize + chunkSize := by ring
  omega

lemma mul_le_of_lt_totalChunks (fileSize chunkSize i : ℕ) (hC : 0 < chunkSize)
    (h : i < totalChunksOf fileSize chunkSize) : i * chunkSize + 1 ≤ fileSize := by
  exact (lt_totalChunks_iff fileSize chunkSize i hC).1 h

lemma fileSize_le_total_mul (fileSize chunkSize : ℕ) (hC : 0 < chunkSize) :
    fileSize ≤ totalChunksOf fileSize chunkSize * chunkSize := by
  unfold totalChunksOf
  have hm := Nat.div_add_mod (fileSize + chunkSize - 1) chunkSize
  have hmod : (fileSize + chunkSize - 1) % chunkSize < chunkSize := Nat.mod_lt _ hC
  have hcomm : (fileSize + chunkSize - 1) / chunkSize * chunkSize
      = chunkSize * ((fileSize + chunkSize - 1) / chunkSize) := Nat.mul_comm _ _
  omega

/-- C2: for file size `S > 0` and chunk size `C > 0`, `processInChunks`
invokes the chunk callback exactly `⌈S/C⌉` times, sequentially in
chunk-index order, with byte ranges covering `[0, S)` contiguously without
gaps or overlaps; the final chunk's size is `S - C*(⌈S/C⌉ - 1)`; and a fetch
error on chunk `j` aborts the operation, so the callback runs exactly for
the chunks preceding `j`. -/
theorem c2_processInChunks_partition (S C : ℕ) (hS : 0 < S) (hC : 0 < C) :
    (∀ fetch : ℕ → Except String Unit,
        (∀ i, i < totalChunksOf S C → fetch i = Except.ok ()) →
        processInChunks S C fetch = ((List.range (totalChunksOf S C)).map (mkChunkInfo S C), none))
    ∧ ((List.range (totalChunksOf S C)).map (mkChunkInfo S C)).length = totalChunksOf S C
    ∧ (∀ i, i < totalChunksOf S C → (mkChunkInfo S C i).chunkIndex = i)
    ∧ (mkChunkInfo S C 0).startByte = 0
    ∧ (∀ i, i + 1 < totalChunksOf S C →
        (mkChunkInfo S C (i + 1)).startByte = (mkChunkInfo S C i).endByte + 1)
    ∧ (mkChunkInfo S C (totalChunksOf S C - 1)).endByte + 1 = S
    ∧ (∀ i, i < totalChunksOf S C →
        (mkChunkInfo S C i).size = (mkChunkInfo S C i).endByte + 1 - (mkChunkInfo S C i).startByte)
    ∧ (mkChunkInfo S C (totalChunksOf S C - 1)).size = S - C * (totalChunksOf S C - 1)
    ∧ (∀ (fetch : ℕ → Except String Unit) (j : ℕ) (e : String),
        j < totalChunksOf S C → fetch j = Except.error e →
        (∀ i, i < j → fetch i = Except.ok ()) →
        processInChunks S C fetch = ((List.range j).map (mkChunkInfo S C), some e)) := by
  have htot_pos : 0 < totalChunksOf S C := by
    unfold totalChunksOf
    have : chunkLoop S C (fun _ => Except.ok ()) [] = ([], none) := rfl
    exact Nat.div_pos (by omega) hC
  refine ⟨?_, ?_, ?_, ?_, ?_, ?_, ?_, ?_, ?_⟩
  · intro fetch hall
    unfold processInChunks
    exact chunkLoop_all_ok S C fetch _ (fun i hi => hall i (List.mem_range.1 hi))
  · simp
  · intro i _
    rfl
  · have h0 : 0 * C + 1 ≤ S := by omega
    simp [mkChunkInfo]
  · intro i hi
    have hi1 : (i + 1) * C + 1 ≤ S := mul_le_of_lt_totalChunks S C (i + 1) hC hi
    have hx : (i + 1) * C = i * C + C := by ring
    simp only [mkChunkInfo]
    omega
  · have hlast : (totalChunksOf S C - 1) * C + 1 ≤ S :=
      mul_le_of_lt_totalChunks S C _ hC (by omega)
    have hup : S ≤ totalChunksOf S C * C := fileSize_le_total_mul S C hC
    simp only [mkChunkInfo]
    have : (totalChunksOf S C - 1) * C + C = totalChunksOf S C * C := by
      have := htot_pos
      calc (totalChunksOf S C - 1) * C + C
          = (totalChunksOf S C - 1 + 1) * C := by ring
        _ = totalChunksOf S C * C := by congr 1; omega
    omega
  · intro i hi
    have h1 : i * C + 1 ≤ S := mul_le_of_lt_totalChunks S C i hC hi
    simp only [mkChunkInfo]
    omega
  · have hlast : (totalChunksOf S C - 1) * C + 1 ≤ S :=
      mul_le_of_lt_totalChunks S C _ hC (by omega)
    have hup : S ≤ totalChunksOf S C * C := fileSize_le_total_mul S C hC
    have hmul : (totalChunksOf S C - 1) * C + C = totalChunksOf S C * C := by
      calc (totalChunksOf S C - 1) * C + C
          = (totalChunksOf S C - 1 + 1) * C := by ring
        _ = totalChunksOf S C * C := by congr 1; omega
    simp only [mkChunkInfo]
    have hcm : C * (totalChunksOf S C - 1) = (totalChunksOf S C - 1) * C := Nat.mul_comm _ _
    omega
  · intro fetch j e hj hje hprev
    unfold processInChunks
    have hsplit : List.range (totalChunksOf S C) =
        List.range j ++
          (j :: List.map (fun x => j + 1 + x) (List.range (totalChunksOf S C - (j + 1)))) := by
      conv_lhs => rw [show totalChunksOf S C = (j + 1) + (totalChunksOf S C - (j + 1)) by omega]
      rw [List.range_add, List.range_succ, List.append_assoc, List.singleton_append]
    rw [hsplit, chunkLoop_append S C fetch _ _
      (fun i hi => hprev i (List.mem_range.1 hi))]
    simp [chunkLoop, hje]

/-- Witness for C2 at `S = 5`, `C = 2` (three chunks `[0,1] [2,3] [4,4]`),
exercising both the all-success clause and the abort-at-chunk-1 clause. -/
theorem c2_processInChunks_partition_witness :
    processInChunks 5 2 (fun _ => Except.ok ()) =
      ((List.range (totalChunksOf 5 2)).map (mkChunkInfo 5 2), none)
    ∧ (mkChunkInfo 5 2 (totalChunksOf 5 2 - 1)).size = 5 - 2 * (totalChunksOf 5 2 - 1)
    ∧ processInChunks 5 2
        (fun i => if i < 1 then Except.ok () else Except.error "chunk fetch failed") =
      ((List.range 1).map (mkChunkInfo 5 2), some "chunk fetch failed") := by
  have h := c2_processInChunks_partition 5 2 (by decide) (by decide)
  refine ⟨h.1 _ (fun i _ => rfl), h.2.2.2.2.2.2.2.1, ?_⟩
  exact h.2.2.2.2.2.2.2.2 _ 1 "chunk fetch failed" (by decide) rfl
    (fun i hi => by interval_cases i
                    rfl)

/-! ## Ingestion state store

`DynamoStateManager` (worker/src/dynamo-state.ts).  A state record is one
DynamoDB item keyed by `(pk = FILE#{bucket}#{key}, sk = STATE#{timestamp})`;
`updateStatus` issues an `UpdateCommand` that SETs `status`, every non-key
field present in the partial-update object, and — exactly when the new
status is `COMPLETED` or `FAILED` — `completedAt = new Date().toISOString()`.
Timestamps are modelled as naturals; the update is modelled as the pure
record transformation the UpdateCommand performs on the stored item. -/

/-- `IngestStatus` from worker/src/dynamo-state.ts. -/
inductive IngestStatus
  | PENDING
  | VALIDATING
  | PROCESSING
  | COMPLETED
  | FAILED
deriving Repr, DecidableEq

/-- Opaque metadata blob (`Record<string, unknown>` in the source). -/
abbrev Meta := List (String × ℕ)

/-- The stored ingest-state item (`IngestState` in dynamo-state.ts). -/
structure StateRecord where
  bucket : String
  key : String
  status : IngestStatus
  fileSize : ℕ
  rowCount : Option ℕ
  chunksProcessed : Option ℕ
  totalChunks : Option ℕ
  errorMessage : Option String
  startedAt : ℕ
  completedAt : Option ℕ
  dagsterRunId : Option String
  taskSize : Option String
  metadata : Option Meta
  ttl : Option ℕ
deriving Repr, DecidableEq

/-- The partial-update object accepted by `updateStatus` (the non-key,
non-status fields its callers actually pass). -/
structure RecordUpdates where
  rowCount : Option ℕ := none
  chunksProcessed : Option ℕ := none
  totalChunks : Option ℕ := none
  errorMessage : Option String := none
  metadata : Option Meta := none
deriving Repr, DecidableEq

/-- A present field of the partial update overwrites the stored one. -/
def mergeField {α : Type} (u old : Option α) : Option α :=
  match u with
  | some v => some v
  | none => old

/-- `pk = FILE#{bucket}#{key}`. -/
def pkOf (bucket key : String) : String := "FILE#" ++ bucket ++ "#" ++ key

/-- `DynamoStateManager.createIngestState`: a fresh record with status
PENDING, `startedAt = now` and `ttl = now + 30 days`. -/
def createIngestState (bucket key : String) (fileSize : ℕ)
    (dagsterRunId taskSize : Option String) (now : ℕ) : StateRecord :=
  { bucket := bucket
    key := key
    status := IngestStatus.PENDING
    fileSize := fileSize
    rowCount := none
    chunksProcessed := none
    totalChunks := none
    errorMessage := none
    startedAt := now
    completedAt := none
    dagsterRunId := dagsterRunId
    taskSize := taskSize
    metadata := none
    ttl := some (now + 30 * 24 * 60 * 60) }

/-- The SET of the partial fields in `updateStatus`'s UpdateExpression. -/
def applyUpdates (r : StateRecord) (u : RecordUpdates) : StateRecord :=
  { r with
    rowCount := mergeField u.rowCount r.rowCount
    chunksProcessed := mergeField u.chunksProcessed r.chunksProcessed
    totalChunks := mergeField u.totalChunks r.totalChunks
    errorMessage := mergeField u.errorMessage r.errorMessage
    metadata := mergeField u.metadata r.metadata }

/-- `isTerminal st` iff the `status === "COMPLETED" || status === "FAILED"`
test of `updateStatus` passes. -/
def isTerminal : IngestStatus → Bool
  | IngestStatus.COMPLETED => true
  | IngestStatus.FAILED => true
  | _ => false

/-- `DynamoStateManager.updateStatus` as the record transformation its
UpdateCommand performs: SET status, SET the partial fields, and SET
`completedAt = now` exactly when the new status is COMPLETED or FAILED. -/
def updateStatusRecord (r : StateRecord) (status : IngestStatus)
    (u : RecordUpdates) (now : ℕ) : StateRecord :=
  let r1 := { applyUpdates r u with status := status }
  if isTerminal status then { r1 with completedAt := some now } else r1

/-- `DynamoStateManager.updateProgress`. -/
def updateProgress (r : StateRecord) (chunksProcessed totalChunks : ℕ)
    (rowCount : Option ℕ) (now : ℕ) : StateRecord :=
  updateStatusRecord r IngestStatus.PROCESSING
    { chunksProcessed := some chunksProcessed
      totalChunks := some totalChunks
      rowCount := rowCount } now

/-- `DynamoStateManager.markCompleted`. -/
def markCompleted (r : StateRecord) (rowCount : ℕ) (metadata : Option Meta)
    (now : ℕ) : StateRecord :=
  updateStatusRecord r IngestStatus.COMPLETED
    { rowCount := some rowCount, metadata := metadata } now

/-- `DynamoStateManager.markFailed`. -/
def markFailed (r : StateRecord) (errorMessage : String) (now : ℕ) : StateRecord :=
  updateStatusRecord r IngestStatus.FAILED { errorMessage := some errorMessage } now

/-- One `updateStatus` call in a run's trace of store writes. -/
structure StoreUpdate where
  status : IngestStatus
  updates : RecordUpdates
  time : ℕ
deriving Repr, DecidableEq

def applyUpdate (r : StateRecord) (op : StoreUpdate) : StateRecord :=
  updateStatusRecord r op.status op.updates op.time

/-- The stored item after a sequence of `updateStatus` calls. -/
def applySeq (r : StateRecord) (ops : List StoreUpdate) : StateRecord :=
  ops.foldl applyUpdate r

lemma updateStatusRecord_status (r : StateRecord) (st : IngestStatus)
    (u : RecordUpdates) (now : ℕ) : (updateStatusRecord r st u now).status = st := by
  unfold updateStatusRecord
  split <;> rfl

lemma updateStatusRecord_completedAt (r : StateRecord) (st : IngestStatus)
    (u : RecordUpdates) (now : ℕ) :
    (updateStatusRecord r st u now).completedAt =
      (if isTerminal st then some now else r.completedAt) := by
  unfold updateStatusRecord applyUpdates
  split <;> rfl

lemma updateStatusRecord_rowCount (r : StateRecord) (st : IngestStatus)
    (u : RecordUpdates) (now : ℕ) :
    (updateStatusRecord r st u now).rowCount = mergeField u.rowCount r.rowCount := by
  unfold updateStatusRecord applyUpdates
  split <;> rfl

lemma updateStatusRecord_errorMessage (r : StateRecord) (st : IngestStatus)
    (u : RecordUpdates) (now : ℕ) :
    (updateStatusRecord r st u now).errorMessage =
      mergeField u.errorMessage r.errorMessage := by
  unfold updateStatusRecord applyUpdates
  split <;> rfl

lemma applySeq_completedAt_none (ops : List StoreUpdate) (r : StateRecord) :
    (applySeq r ops).completedAt = none ↔
      (r.completedAt = none ∧ ∀ op ∈ ops, isTerminal op.status = false) := by
  induction ops generalizing r with
  | nil => simp [applySeq]
  | cons op rest ih =>
    simp only [applySeq, List.foldl_cons] at *
    rw [ih, applyUpdate, updateStatusRecord_completedAt]
    by_cases ht : isTerminal op.status = true
    · simp [ht]
    · have ht' : isTerminal op.status = false := by simpa using ht
      simp [ht']

lemma applySeq_append_single (r : StateRecord) (l : List StoreUpdate) (b : StoreUpdate) :
    applySeq r (l ++ [b]) = applyUpdate (applySeq r l) b := by
  simp [applySeq, List.foldl_append]

/-- C7 counterexample data: a fresh record completed at time 10 and completed
again at time 20. -/
def c7sample : StateRecord := createIngestState "b" "k" 100 none none 0

def c7once : StateRecord := markCompleted c7sample 5 none 10

def c7twice : StateRecord := markCompleted c7once 5 none 20

/-- C7 fails as stated: the second `markCompleted` call does not keep the
first call's `completedAt` — `updateStatus` re-stamps `completedAt` on every
terminal-status call, so the second call overwrites 10 with 20. -/
theorem c7_markCompleted_restamps_counterexample :
    c7once.completedAt = some 10
    ∧ c7twice.completedAt = some 20
    ∧ c7twice.completedAt ≠ c7once.completedAt
    ∧ c7twice.status = IngestStatus.COMPLETED := by
  refine ⟨rfl, rfl, ?_, rfl⟩
  decide

/-- C7 (amended): calling `markCompleted` twice on the same record leaves
status COMPLETED, but `completedAt` is re-stamped with the second call's
time (each call sets it; the first call's value is overwritten, so it is
stable only if the two calls carry the same timestamp); `updateStatus`
stamps `completedAt` exactly when the new status is COMPLETED or FAILED;
and for every record history in which terminal updates occur only as the
last operation (as the processor's call sequence guarantees), `completedAt`
is set iff the record's status is terminal. -/
theorem c7_terminal_stamping (r : StateRecord) (c₁ c₂ : ℕ) (m₁ m₂ : Option Meta)
    (t₁ t₂ : ℕ) (st : IngestStatus) (u : RecordUpdates) (now : ℕ) :
    (markCompleted (markCompleted r c₁ m₁ t₁) c₂ m₂ t₂).status = IngestStatus.COMPLETED
    ∧ (markCompleted r c₁ m₁ t₁).completedAt = some t₁
    ∧ (markCompleted (markCompleted r c₁ m₁ t₁) c₂ m₂ t₂).completedAt = some t₂
    ∧ (updateStatusRecord r st u now).completedAt =
        (if isTerminal st then some now else r.completedAt)
    ∧ (∀ (bucket key : String) (fs : ℕ) (dr ts : Option String) (t₀ : ℕ)
         (ops : List StoreUpdate),
        (∀ op ∈ ops.dropLast, isTerminal op.status = false) →
        ((applySeq (createIngestState bucket key fs dr ts t₀) ops).completedAt ≠ none
          ↔ isTerminal (applySeq (createIngestState bucket key fs dr ts t₀) ops).status = true)) := by
  refine ⟨updateStatusRecord_status _ _ _ _, ?_, ?_,
    updateStatusRecord_completedAt _ _ _ _, ?_⟩
  · rw [markCompleted, updateStatusRecord_completedAt]
    rfl
  · rw [markCompleted, updateStatusRecord_completedAt]
    rfl
  · intro bucket key fs dr ts t₀ ops hops
    rcases List.eq_nil_or_concat ops with rfl | ⟨l, b, rfl⟩
    · simp [applySeq, createIngestState, isTerminal]
    · rw [List.concat_eq_append] at *
      rw [applySeq_append_single]
      have hl : ∀ op ∈ l, isTerminal op.status = false := by
        intro op hop
        apply hops
        rw [List.dropLast_concat]
        exact hop
      rw [applyUpdate, updateStatusRecord_status, updateStatusRecord_completedAt]
      by_cases ht : isTerminal b.status
      · simp [ht]
      · simp only [Bool.not_eq_true] at ht
        rw [ht]
        have : (applySeq (createIngestState bucket key fs dr ts t₀) l).completedAt = none := by
          rw [applySeq_completedAt_none]
          exact ⟨rfl, hl⟩
        simp [this, ht]

/-! ## Run requests, the S3 poll sensor, and the orchestrator dedup loop

`RunRequest` (dagster_ts/src/sensor.ts), `pollS3Sensor` and
`isAlreadyProcessed` (the S3 poll sensor source file), and the
`onRunRequest` callback with its module-level `processedRunKeys` set (the
orchestrator source file).  The DynamoDB latest-state query and the ECS
processing outcome are oracles; `outcomes n` is whether the n-th
`processFileWithPipes` invocation of the run succeeds (`false` models a
thrown error). -/

/-- `ProcessFileConfig` (fargate-ops.ts) as used in run requests. -/
structure ProcessFileConfig where
  s3Bucket : String
  s3Key : String
  taskSize : Option String
deriving Repr, DecidableEq

/-- `RunRequest` from dagster_ts/src/sensor.ts. -/
structure RunRequest where
  runKey : String
  config : ProcessFileConfig
  tags : List (String × String)
deriving Repr, DecidableEq

/-- One listed S3 object (bucket listing entry). -/
structure S3Obj where
  key : String
  size : ℕ
  etag : String
deriving Repr, DecidableEq

/-- Environment of the S3 poll sensor: the DynamoDB latest-state query
(`Except.error` models a thrown query error, caught per file) and the JS
float formatting of `file_size_mb` (a `String(Math.round(size/2^20*100)/100)`
oracle). -/
structure PollEnv where
  latestStatus : String → Except String (Option IngestStatus)
  mbString : ℕ → String

/-- `isAlreadyProcessed`: true iff the file's latest state-store status is
COMPLETED, PROCESSING, VALIDATING or PENDING (a file with no state record is
not "already processed"). -/
def isAlreadyProcessedStatus (latest : Option IngestStatus) : Bool :=
  match latest with
  | none => false
  | some st =>
    [IngestStatus.COMPLETED, IngestStatus.PROCESSING,
     IngestStatus.VALIDATING, IngestStatus.PENDING].contains st

/-- The `RunRequest` that `pollS3Sensor` pushes for one unprocessed object. -/
def mkPollRunRequest (env : PollEnv) (bucketName : String) (obj : S3Obj) : RunRequest :=
  let taskSize := resourceGetRecommendedTaskSize obj.size
  { runKey := bucketName ++ "/" ++ obj.key ++ "/" ++ obj.etag
    config := { s3Bucket := bucketName, s3Key := obj.key, taskSize := some taskSize }
    tags := [("s3_bucket", bucketName), ("s3_key", obj.key),
             ("file_size_mb", env.mbString obj.size), ("task_size", taskSize)] }

/-- One iteration of `pollS3Sensor`'s loop over the listed objects: check
the state store, skip on a thrown check error (caught per file) or an
already-processed status, otherwise push the object's RunRequest. -/
def pollStep (env : PollEnv) (bucketName : String) (acc : List RunRequest)
    (obj : S3Obj) : List RunRequest :=
  match env.latestStatus obj.key with
  | Except.error _ => acc
  | Except.ok latest =>
    if isAlreadyProcessedStatus latest then acc
    else acc ++ [mkPollRunRequest env bucketName obj]

/-- `pollS3Sensor`: lists the bucket and emits a RunRequest per object whose
latest state-store status does not mark it processed/in-progress. -/
def pollS3Sensor (env : PollEnv) (bucketName : String) (objects : List S3Obj) :
    List RunRequest :=
  objects.foldl (pollStep env bucketName) []

lemma pollStep_error (env : PollEnv) (bucketName : String) (acc : List RunRequest)
    (obj : S3Obj) (e : String) (hst : env.latestStatus obj.key = Except.error e) :
    pollStep env bucketName acc obj = acc := by
  unfold pollStep
  rw [hst]

lemma pollStep_blocked (env : PollEnv) (bucketName : String) (acc : List RunRequest)
    (obj : S3Obj) (latest : Option IngestStatus)
    (hst : env.latestStatus obj.key = Except.ok latest)
    (hb : isAlreadyProcessedStatus latest = true) :
    pollStep env bucketName acc obj = acc := by
  unfold pollStep
  rw [hst]
  simp [hb]

lemma pollStep_emit (env : PollEnv) (bucketName : String) (acc : List RunRequest)
    (obj : S3Obj) (latest : Option IngestStatus)
    (hst : env.latestStatus obj.key = Except.ok latest)
    (hb : isAlreadyProcessedStatus latest = false) :
    pollStep env bucketName acc obj = acc ++ [mkPollRunRequest env bucketName obj] := by
  unfold pollStep
  rw [hst]
  simp [hb]

/-- The orchestrator's observable state: its `processedRunKeys` dedup set,
the run keys for which `processFileWithPipes` was invoked (in order), those
whose invocation succeeded, and the number of invocations so far (indexing
the outcome oracle). -/
structure OrchState where
  processedRunKeys : List String
  invocations : List String
  successes : List String
  attempts : ℕ
deriving Repr, DecidableEq

/-- The orchestrator's `onRunRequest` callback: skip when the runKey is in
the dedup set; otherwise invoke processing, and add the runKey to the set
only when the invocation succeeds (the catch branch records the failure and
does not touch the set). -/
def onRunRequest (outcomes : ℕ → Bool) (s : OrchState) (req : RunRequest) : OrchState :=
  if s.processedRunKeys.contains req.runKey then s
  else
    let ok := outcomes s.attempts
    { processedRunKeys := if ok then s.processedRunKeys ++ [req.runKey] else s.processedRunKeys
      invocations := s.invocations ++ [req.runKey]
      successes := if ok then s.successes ++ [req.runKey] else s.successes
      attempts := s.attempts + 1 }

def initialOrchState : OrchState :=
  { processedRunKeys := [], invocations := [], successes := [], attempts := 0 }

/-- The sensor loop's sequential delivery of run requests to `onRunRequest`. -/
def runOrchestrator (outcomes : ℕ → Bool) (reqs : List RunRequest) : OrchState :=
  reqs.foldl (onRunRequest outcomes) initialOrchState

def orchInvariant (s : OrchState) : Prop :=
  ∀ k : String, s.successes.count k ≤ 1
    ∧ (1 ≤ s.successes.count k → s.processedRunKeys.contains k = true)

lemma onRunRequest_skip (outcomes : ℕ → Bool) (s : OrchState) (req : RunRequest)
    (hmem : s.processedRunKeys.contains req.runKey = true) :
    onRunRequest outcomes s req = s := by
  unfold onRunRequest
  rw [hmem]
  rfl

lemma onRunRequest_invoke_success (outcomes : ℕ → Bool) (s : OrchState) (req : RunRequest)
    (hmem : s.processedRunKeys.contains req.runKey = false)
    (hout : outcomes s.attempts = true) :
    onRunRequest outcomes s req =
      { processedRunKeys := s.processedRunKeys ++ [req.runKey]
        invocations := s.invocations ++ [req.runKey]
        successes := s.successes ++ [req.runKey]
        attempts := s.attempts + 1 } := by
  unfold onRunRequest
  rw [hmem, hout]
  rfl

lemma onRunRequest_invoke_failure (outcomes : ℕ → Bool) (s : OrchState) (req : RunRequest)
    (hmem : s.processedRunKeys.contains req.runKey = false)
    (hout : outcomes s.attempts = false) :
    onRunRequest outcomes s req =
      { processedRunKeys := s.processedRunKeys
        invocations := s.invocations ++ [req.runKey]
        successes := s.successes
        attempts := s.attempts + 1 } := by
  unfold onRunRequest
  rw [hmem, hout]
  rfl

lemma onRunRequest_preserves (outcomes : ℕ → Bool) (s : OrchState) (req : RunRequest)
    (h : orchInvariant s) : orchInvariant (onRunRequest outcomes s req) := by
  intro k
  cases hmem : s.processedRunKeys.contains req.runKey with
  | true =>
    rw [onRunRequest_skip outcomes s req hmem]
    exact h k
  | false =>
    cases hout : outcomes s.attempts with
    | false =>
      rw [onRunRequest_invoke_failure outcomes s req hmem hout]
      exact h k
    | true =>
      rw [onRunRequest_invoke_success outcomes s req hmem hout]
      by_cases hk : req.runKey = k
      · subst hk
        have hcount : s.successes.count req.runKey = 0 := by
          by_contra hne
          have h1 : 1 ≤ s.successes.count req.runKey := by omega
          rw [(h req.runKey).2 h1] at hmem
          cases hmem
        constructor
        · show (s.successes ++ [req.runKey]).count req.runKey ≤ 1
          rw [List.count_append, hcount, List.count_singleton]
          simp
        · intro _
          show (s.processedRunKeys ++ [req.runKey]).contains req.runKey = true
          rw [List.elem_iff]
          exact List.mem_append_right _ (List.mem_singleton_self _)
      · have hsing : ([req.runKey].count k) = 0 := by
          rw [List.count_singleton]
          simp [hk]
        constructor
        · show (s.successes ++ [req.runKey]).count k ≤ 1
          rw [List.count_append, hsing]
          have := (h k).1
          omega
        · intro hc
          rw [show ((s.successes ++ [req.runKey]).count k : ℕ)
              = s.successes.count k + [req.runKey].count k from List.count_append k _ _,
            hsing] at hc
          have hc' : 1 ≤ s.successes.count k := by omega
          have hmemk := (h k).2 hc'
          show (s.processedRunKeys ++ [req.runKey]).contains k = true
          rw [List.elem_iff] at hmemk ⊢
          exact List.mem_append_left _ hmemk

lemma foldl_preserves_orchInvariant (outcomes : ℕ → Bool) (reqs : List RunRequest)
    (s : OrchState) (h : orchInvariant s) :
    orchInvariant (reqs.foldl (onRunRequest outcomes) s) := by
  induction reqs generalizing s with
  | nil => exact h
  | cons req rest ih =>
    exact ih _ (onRunRequest_preserves outcomes s req h)

lemma pollS3Sensor_emits (env : PollEnv) (bucketName : String) (objects : List S3Obj)
    (acc : List RunRequest) (r : RunRequest)
    (hr : r ∈ objects.foldl (pollStep env bucketName) acc) :
    r ∈ acc ∨ ∃ obj ∈ objects, r = mkPollRunRequest env bucketName obj
      ∧ ∃ latest, env.latestStatus obj.key = Except.ok latest
        ∧ isAlreadyProcessedStatus latest = false := by
  induction objects generalizing acc with
  | nil => exact Or.inl hr
  | cons obj rest ih =>
    simp only [List.foldl_cons] at hr
    rcases hst : env.latestStatus obj.key with e | latest
    · rw [pollStep_error env bucketName acc obj e hst] at hr
      rcases ih acc hr with h | ⟨o, ho, hro⟩
      · exact Or.inl h
      · exact Or.inr ⟨o, List.mem_cons_of_mem obj ho, hro⟩
    · cases hb : isAlreadyProcessedStatus latest with
      | false =>
        rw [pollStep_emit env bucketName acc obj latest hst hb] at hr
        rcases ih _ hr with h | ⟨o, ho, hro⟩
        · rcases List.mem_append.1 h with h | h
          · exact Or.inl h
          · refine Or.inr ⟨obj, List.mem_cons_self obj rest, ?_⟩
            rcases List.mem_singleton.1 h with rfl
            exact ⟨rfl, latest, hst, hb⟩
        · exact Or.inr ⟨o, List.mem_cons_of_mem obj ho, hro⟩
      | true =>
        rw [pollStep_blocked env bucketName acc obj latest hst hb] at hr
        rcases ih acc hr with h | ⟨o, ho, hro⟩
        · exact Or.inl h
        · exact Or.inr ⟨o, List.mem_cons_of_mem obj ho, hro⟩

/-- C1 counterexample input: the same run request delivered twice, with the
processing invocation failing each time. -/
def c1req : RunRequest :=
  { runKey := "bkt/board/file.csv/etag1"
    config := { s3Bucket := "bkt", s3Key := "board/file.csv", taskSize := some "lambda" }
    tags := [] }

/-- C1 fails as stated: with two RunRequests carrying the same `run_key`
whose first processing invocation throws, the orchestrator invokes file
processing twice for that key — the dedup set only gains a key after a
*successful* invocation, so a failed attempt does not block reprocessing. -/
theorem c1_at_most_once_counterexample :
    (runOrchestrator (fun _ => false) [c1req, c1req]).invocations.count
        "bkt/board/file.csv/etag1" = 2
    ∧ ¬ ((runOrchestrator (fun _ => false) [c1req, c1req]).invocations.count
        "bkt/board/file.csv/etag1" ≤ 1) := by
  constructor
  · rfl
  · decide

/-- C1 (amended): at most one RunRequest with a given `run_key` ever results
in *successful* processing — the orchestrator skips a request exactly when
its runKey is in the in-memory dedup set, and a key enters the set only
after a successful invocation, so a failed invocation leaves the key
eligible for reprocessing; and the poll-mode S3 sensor emits a RunRequest
only for objects whose latest state-store status check succeeded and is
none of COMPLETED, PROCESSING, VALIDATING, PENDING. -/
theorem c1_dedup_per_runKey (outcomes : ℕ → Bool) (reqs : List RunRequest) (k : String) :
    ((runOrchestrator outcomes reqs).successes.count k ≤ 1)
    ∧ (∀ (s : OrchState) (req : RunRequest),
        (s.processedRunKeys.contains req.runKey = true → onRunRequest outcomes s req = s)
        ∧ (s.processedRunKeys.contains req.runKey = false →
            (onRunRequest outcomes s req).invocations = s.invocations ++ [req.runKey]))
    ∧ (∀ st : IngestStatus, isAlreadyProcessedStatus (some st) = true ↔
        (st = IngestStatus.COMPLETED ∨ st = IngestStatus.PROCESSING
          ∨ st = IngestStatus.VALIDATING ∨ st = IngestStatus.PENDING))
    ∧ (∀ (env : PollEnv) (bucketName : String) (objects : List S3Obj) (r : RunRequest),
        r ∈ pollS3Sensor env bucketName objects →
        ∃ obj ∈ objects, r = mkPollRunRequest env bucketName obj
          ∧ ∃ latest, env.latestStatus obj.key = Except.ok latest
            ∧ isAlreadyProcessedStatus latest = false) := by
  refine ⟨?_, ?_, ?_, ?_⟩
  · have hinv : orchInvariant initialOrchState := by
      intro k'
      simp [initialOrchState]
    exact (foldl_preserves_orchInvariant outcomes reqs initialOrchState hinv k).1
  · intro s req
    constructor
    · intro hmem
      exact onRunRequest_skip outcomes s req hmem
    · intro hmem
      cases hout : outcomes s.attempts with
      | false => rw [onRunRequest_invoke_failure outcomes s req hmem hout]
      | true => rw [onRunRequest_invoke_success outcomes s req hmem hout]
  · intro st
    cases st <;> simp [isAlreadyProcessedStatus]
  · intro env bucketName objects r hr
    rcases pollS3Sensor_emits env bucketName objects [] r hr with h | h
    · simp at h
    · exact h

/-! ## JS string helpers

The TypeScript code uses `split`, `trim`, `toLowerCase`, `endsWith`,
`includes` and `lastIndexOf`-based extension extraction on JS strings.
These are modelled as structurally recursive functions over the character
list of a Lean `String` so that every definition evaluates inside the
kernel.  (`String.splitOn`/`String.toLower` from the library are defined by
well-founded recursion over byte positions and do not reduce, so they are
avoided.) -/

/-- JS `s.split(sep)` for a one-character separator, on character lists:
`split` of the empty string is `[""]`, and a trailing separator yields a
trailing empty field. -/
def splitChars (sep : Char) : List Char → List (List Char)
  | [] => [[]]
  | c :: rest =>
    let r := splitChars sep rest
    if c == sep then [] :: r
    else
      match r with
      | h :: t => (c :: h) :: t
      | [] => [[c]]

/-- JS `s.split(sep)` for a one-character separator. -/
def jsSplit (sep : Char) (s : String) : List String :=
  (splitChars sep s.toList).map String.mk

/-- JS `s.trim()`: strip leading and trailing whitespace. -/
def jsTrim (s : String) : String :=
  String.mk (((s.toList.dropWhile Char.isWhitespace).reverse.dropWhile
    Char.isWhitespace).reverse)

/-- JS `s.toLowerCase()` (ASCII case mapping, which is all the source
compares). -/
def jsToLower (s : String) : String :=
  String.mk (s.toList.map Char.toLower)

/-- JS `s.endsWith(suffix)`. -/
def jsEndsWith (s suffix : String) : Bool :=
  suffix.toList.isSuffixOf s.toList

def charsContains (sub : List Char) : List Char → Bool
  | [] => sub.isEmpty
  | c :: rest => sub.isPrefixOf (c :: rest) || charsContains sub rest

/-- JS `s.includes(sub)`. -/
def jsIncludes (s sub : String) : Bool :=
  charsContains sub.toList s.toList

/-! ## Column/structure validator and enrichment handler

`column-validator.ts` (`validateCsvColumns`, `validateJsonFields`,
`isValidDate`, `isValidNumber`, `validateType`) and
`worker/src/enrichment-handler.ts` (`parseCsvLine`, `extractFolder`,
`isJunkFile`, `isExtensionAllowed`, `validateFileStructure`, `handler`).
JS builtins that the validator defers to — `Date.parse`, `Number`,
`JSON.parse`, `String(value)`, `decodeURIComponent` (composed with the
`+`→space replacement), the DynamoDB config lookup (whose errors
`getConfigForFolder` catches internally, returning null) and the S3
byte-range fetch — are environment oracles in `EnrichEnv`.  JSON values
are the inductive `Jsn`. -/

/-- A parsed JSON value (the output shape of the `JSON.parse` oracle). -/
inductive Jsn where
  | null
  | bool (b : Bool)
  | num (q : ℚ)
  | str (s : String)
  | arr (elems : List Jsn)
  | obj (fields : List (String × Jsn))
deriving Repr

/-- JS falsiness of a parsed JSON value (`!firstRecord`). -/
def jsFalsy : Jsn → Bool
  | Jsn.null => true
  | Jsn.bool b => !b
  | Jsn.num q => q == 0
  | Jsn.str s => s == ""
  | Jsn.arr _ => false
  | Jsn.obj _ => false

/-- `typeof record === "object" && record !== null`: JSON objects and JSON
arrays qualify (`Object.keys` of an array yields its index strings). -/
def jsObjFields : Jsn → Option (List (String × Jsn))
  | Jsn.obj fields => some fields
  | Jsn.arr elems => some (elems.enum.map (fun p => (toString p.1, p.2)))
  | _ => none

/-- Column types from the registry schema (`"string" | "date" | "number"`). -/
inductive ColType
  | string
  | date
  | number
deriving Repr, DecidableEq

def colTypeName : ColType → String
  | ColType.string => "string"
  | ColType.date => "date"
  | ColType.number => "number"

/-- `ColumnDef` from column-validator.ts. -/
structure ColumnDef where
  name : String
  type : ColType
deriving Repr, DecidableEq

/-- `DatasetConfig` from enrichment-handler.ts (the fields the handler
reads). -/
structure DatasetConfig where
  dataset_id : String
  schema_version : String
  compute_target : String
  allowed_extensions : List String
  required_columns : List ColumnDef

/-- The environment oracles of the enrichment handler. -/
structure EnrichEnv where
  /-- S3 GetObject of the first `n` bytes of `bucket/key`, decoded as UTF-8;
  `Except.error` models a thrown fetch error. -/
  fetchRange : String → String → ℕ → Except String String
  /-- `JSON.parse`; `none` models a thrown SyntaxError. -/
  jsonParse : String → Option Jsn
  /-- `!isNaN(Date.parse(s))`. -/
  jsDateParse : String → Bool
  /-- `!isNaN(Number(s))`. -/
  jsNumberOk : String → Bool
  /-- JS `String(value)` on a parsed JSON value. -/
  jsString : Jsn → String
  /-- `decodeURIComponent(key.replace(/\+/g, " "))`; `none` models a thrown
  URIError. -/
  decodeKey : String → Option String
  /-- `getConfigForFolder` (DynamoDB lookup; its own try/catch turns errors
  into null, so the oracle is total). -/
  getConfig : String → Option DatasetConfig

/-- `^\d{1,2}\/\d{1,2}\/\d{2,4}$`. -/
def matchSlashDate (s : String) : Bool :=
  match jsSplit '/' s with
  | [a, b, c] =>
    a.toList.all Char.isDigit && (a.length == 1 || a.length == 2)
    && b.toList.all Char.isDigit && (b.length == 1 || b.length == 2)
    && c.toList.all Char.isDigit && (c.length == 2 || c.length == 3 || c.length == 4)
  | _ => false

/-- `^\d{4}-\d{2}-\d{2}$`. -/
def matchIsoDate (s : String) : Bool :=
  match jsSplit '-' s with
  | [a, b, c] =>
    a.toList.all Char.isDigit && a.length == 4
    && b.toList.all Char.isDigit && b.length == 2
    && c.toList.all Char.isDigit && c.length == 2
  | _ => false

/-- `^\d{1,2}-\d{1,2}-\d{2,4}$`. -/
def matchDashDate (s : String) : Bool :=
  match jsSplit '-' s with
  | [a, b, c] =>
    a.toList.all Char.isDigit && (a.length == 1 || a.length == 2)
    && b.toList.all Char.isDigit && (b.length == 1 || b.length == 2)
    && c.toList.all Char.isDigit && (c.length == 2 || c.length == 3 || c.length == 4)
  | _ => false

/-- `isValidDate` from column-validator.ts. -/
def isValidDate (env : EnrichEnv) (value : String) : Bool :=
  if jsTrim value == "" then false
  else if env.jsDateParse (jsTrim value) then true
  else matchSlashDate (jsTrim value) || matchIsoDate (jsTrim value)
    || matchDashDate (jsTrim value)

/-- `isValidNumber` from column-validator.ts. -/
def isValidNumber (env : EnrichEnv) (value : String) : Bool :=
  if jsTrim value == "" then false else env.jsNumberOk (jsTrim value)

/-- `validateType` from column-validator.ts. -/
def validateType (env : EnrichEnv) (value : String) : ColType → Bool
  | ColType.date => isValidDate env value
  | ColType.number => isValidNumber env value
  | ColType.string => true

/-- `ValidationResult` from column-validator.ts. -/
structure ValidationResult where
  valid : Bool
  errors : List String
deriving Repr, DecidableEq

/-- Last-wins association lookup: JS object field access on an object built
by assigning the pairs in order (`firstRow[headers[i]] = values[i]`, later
assignments overwriting earlier ones); `none` is JS `undefined`. -/
def lookupLast (pairs : List (String × String)) (k : String) : Option String :=
  match (pairs.filter (fun p => p.1 == k)).getLast? with
  | some p => some p.2
  | none => none

/-- `validateCsvColumns` from column-validator.ts. -/
def validateCsvColumns (env : EnrichEnv) (headers : List String)
    (firstRow : List (String × String)) (requiredColumns : List ColumnDef) :
    ValidationResult :=
  let normalizedHeaders := headers.map (fun h => jsTrim (jsToLower h))
  let errors := requiredColumns.foldl
    (fun errs col =>
      let colName := jsToLower col.name
      match List.indexOf? colName normalizedHeaders with
      | none => errs ++ ["Missing required column \x27" ++ col.name ++ "\x27"]
      | some headerIndex =>
        let actualHeader := headers.getD headerIndex ""
        match lookupLast firstRow actualHeader with
        | none => errs
        | some value =>
          if col.type ≠ ColType.string ∧ jsTrim value ≠ "" then
            if validateType env value col.type then errs
            else errs ++ ["Column \x27" ++ col.name ++ "\x27 expected type \x27"
              ++ colTypeName col.type ++ "\x27 but got value \x27" ++ value ++ "\x27"]
          else errs)
    []
  { valid := errors.isEmpty, errors := errors }

/-- `validateJsonFields` from column-validator.ts. -/
def validateJsonFields (env : EnrichEnv) (record : Jsn)
    (requiredColumns : List ColumnDef) : ValidationResult :=
  match jsObjFields record with
  | none => { valid := false, errors := ["First record is not a valid JSON object"] }
  | some fields =>
    let keys := fields.map (fun p => p.1)
    let errors := requiredColumns.foldl
      (fun errs col =>
        let colName := jsToLower col.name
        if (keys.map jsToLower).contains colName then
          let actualKey := (keys.find? (fun k => jsToLower k == colName)).getD ""
          match (fields.find? (fun p => p.1 == actualKey)).map (fun p => p.2) with
          | none => errs
          | some Jsn.null => errs
          | some v =>
            if col.type ≠ ColType.string then
              if validateType env (env.jsString v) col.type then errs
              else errs ++ ["Field \x27" ++ col.name ++ "\x27 expected type \x27"
                ++ colTypeName col.type ++ "\x27 but got value \x27"
                ++ env.jsString v ++ "\x27"]
            else errs
        else errs ++ ["Missing required field \x27" ++ col.name ++ "\x27"])
      []
    { valid := errors.isEmpty, errors := errors }

/-- The quote-aware CSV splitter loop of `parseCsvLine`
(enrichment-handler.ts; the identical copy lives in worker/src/index.ts):
a doubled quote inside quotes emits one quote and skips both characters,
a quote toggles the in-quotes flag, an unquoted comma ends the current
field (trimmed), and any other character is appended. -/
def parseCsvAux : Bool → String → List String → List Char → List String
  | _, current, acc, [] => acc ++ [jsTrim current]
  | true, current, acc, '"' :: '"' :: rest => parseCsvAux true (current.push '"') acc rest
  | inQuotes, current, acc, '"' :: rest => parseCsvAux (!inQuotes) current acc rest
  | false, current, acc, ',' :: rest => parseCsvAux false "" (acc ++ [jsTrim current]) rest
  | inQuotes, current, acc, c :: rest => parseCsvAux inQuotes (current.push c) acc rest

/-- `parseCsvLine`. -/
def parseCsvLine (line : String) : List String :=
  parseCsvAux false "" [] line.toList

/-- `key.substring(key.lastIndexOf(".")).toLowerCase()`: with no dot,
`lastIndexOf` is -1 and `substring(-1)` is the whole string. -/
def extOf (key : String) : String :=
  let parts := jsSplit '.' key
  if parts.length == 1 then jsToLower key
  else "." ++ jsToLower (parts.getLastD "")

/-- `isJunkFile` from enrichment-handler.ts. -/
def isJunkFile (s3Key : String) : Bool :=
  jsEndsWith (jsToLower s3Key) ".tmp" || jsEndsWith (jsToLower s3Key) ".crdownload"

/-- `isExtensionAllowed` from enrichment-handler.ts. -/
def isExtensionAllowed (s3Key : String) (allowedExtensions : List String) : Bool :=
  if allowedExtensions.isEmpty then true
  else allowedExtensions.contains (extOf s3Key)

/-- `extractFolder`: the prefix before the first `/`, or null without one. -/
def extractFolder (s3Key : String) : Option String :=
  let pre := s3Key.toList.takeWhile (fun c => c != '/')
  if pre.length == s3Key.toList.length then none else some (String.mk pre)

/-- `{valid, error?}` returned by `validateFileStructure`. -/
structure ValidationOutcome where
  valid : Bool
  error : Option String
deriving Repr, DecidableEq

/-- The non-blank lines of the fetched CSV sample
(`content.split("\n").filter((l) => l.trim())`). -/
def csvSampleLines (content : String) : List String :=
  (jsSplit '\n' content).filter (fun l => jsTrim l != "")

/-- `firstRecord` selection for a successfully parsed JSON sample: first
element of a non-empty array, the value itself when not an array, null for
an empty array. -/
def firstRecordOf : Jsn → Option Jsn
  | Jsn.arr (x :: _) => some x
  | Jsn.arr [] => none
  | v => some v

/-- The tail of the JSON branch of `validateFileStructure` after
`firstRecord` is determined: `!firstRecord` rejects, otherwise
`validateJsonFields` decides. -/
def jsonRecordCheck (env : EnrichEnv) (requiredColumns : List ColumnDef) :
    Option Jsn → ValidationOutcome
  | none => { valid := false, error := some "No records found in JSON file" }
  | some r =>
    if jsFalsy r then { valid := false, error := some "No records found in JSON file" }
    else
      let validation := validateJsonFields env r requiredColumns
      if validation.valid then { valid := true, error := none }
      else { valid := false, error := some (String.intercalate "; " validation.errors) }

/-- `validateFileStructure` from enrichment-handler.ts.  The whole body sits
in a try/catch whose catch returns `{valid: true}` (fail open); in this
model the only throwing operation is the byte-range fetch, so the catch
corresponds to its `Except.error` branch. -/
def validateFileStructure (env : EnrichEnv) (bucket key : String)
    (requiredColumns : List ColumnDef) : ValidationOutcome :=
  if requiredColumns.isEmpty then { valid := true, error := none }
  else if extOf key = ".csv" then
    match env.fetchRange bucket key 8192 with
    | Except.error _ => { valid := true, error := none }
    | Except.ok content =>
      if content = "" then { valid := false, error := some "Empty file" }
      else
        match csvSampleLines content with
        | l0 :: l1 :: _ =>
          let headers := parseCsvLine l0
          let firstRowValues := parseCsvLine l1
          let firstRow := (List.range headers.length).map
            (fun i => (headers.getD i "", firstRowValues.getD i ""))
          let validation := validateCsvColumns env headers firstRow requiredColumns
          if validation.valid then { valid := true, error := none }
          else { valid := false, error := some (String.intercalate "; " validation.errors) }
        | _ => { valid := false, error := some "CSV file missing header or data rows" }
  else if extOf key = ".json" then
    match env.fetchRange bucket key 16384 with
    | Except.error _ => { valid := true, error := none }
    | Except.ok content =>
      if content = "" then { valid := false, error := some "Empty file" }
      else
        match env.jsonParse content with
        | some parsed => jsonRecordCheck env requiredColumns (firstRecordOf parsed)
        | none =>
          match (jsSplit '\n' content).find? (fun l => jsTrim l != "") with
          | some firstLine =>
            match env.jsonParse firstLine with
            | some r => jsonRecordCheck env requiredColumns (some r)
            | none => { valid := false, error := some "Invalid JSON format" }
          | none => jsonRecordCheck env requiredColumns none
  else { valid := true, error := none }

/-- One S3 object reference inside an event record
(`{object: {key, size, eTag}}`). -/
structure S3ObjectInfo where
  key : String
  size : ℕ
  eTag : String
deriving Repr, DecidableEq

/-- `S3EventRecord` (`{s3: {bucket: {name}, object: {...}}}`). -/
structure S3EventRecord where
  bucketName : String
  objectInfo : S3ObjectInfo
deriving Repr, DecidableEq

/-- `S3Event` (`{Records: [...]}`). -/
structure S3Event where
  Records : List S3EventRecord
deriving Repr, DecidableEq

/-- One element of the enrichment handler's input batch
(`PipeEnrichmentInput`); `none` models an absent/undefined `s3_event`. -/
structure EnrichEvent where
  s3_event : Option S3Event
deriving Repr, DecidableEq

/-- `EnrichmentData` from enrichment-handler.ts. -/
structure EnrichmentData where
  registered : Bool
  dataset_id : Option String := none
  schema_version : Option String := none
  compute_target : Option String := none
  validation_status : Option String := none
  validation_error : Option String := none
deriving Repr, DecidableEq

/-- `EnrichedOutput` from enrichment-handler.ts. -/
structure EnrichedOutput where
  original_event : Option S3Event
  enrichment_data : EnrichmentData
deriving Repr, DecidableEq

/-- `{registered: false}`. -/
def notRegistered : EnrichmentData := { registered := false }

/-- The per-event body of the handler's loop, including its try/catch: every
branch pushes exactly one output.  A `decodeKey` failure is the loop body's
throwing operation (`decodeURIComponent`), landing in the per-event catch,
which emits `registered:false` for this event only. -/
def enrichOne (env : EnrichEnv) (event : EnrichEvent) : EnrichedOutput :=
  match event.s3_event with
  | none => { original_event := none, enrichment_data := notRegistered }
  | some s3Event =>
    match s3Event.Records with
    | [] => { original_event := some s3Event, enrichment_data := notRegistered }
    | record :: _ =>
      match env.decodeKey record.objectInfo.key with
      | none => { original_event := some s3Event, enrichment_data := notRegistered }
      | some s3Key =>
        if isJunkFile s3Key then
          { original_event := some s3Event, enrichment_data := notRegistered }
        else
          match extractFolder s3Key with
          | none => { original_event := some s3Event, enrichment_data := notRegistered }
          | some folder =>
            if folder = "" then
              { original_event := some s3Event, enrichment_data := notRegistered }
            else
              match env.getConfig folder with
              | none => { original_event := some s3Event, enrichment_data := notRegistered }
              | some config =>
                if !(isExtensionAllowed s3Key config.allowed_extensions) then
                  { original_event := some s3Event, enrichment_data := notRegistered }
                else
                  let sv := validateFileStructure env record.bucketName s3Key
                    config.required_columns
                  if sv.valid then
                    { original_event := some s3Event
                      enrichment_data :=
                        { registered := true
                          dataset_id := some config.dataset_id
                          schema_version := some config.schema_version
                          compute_target := some config.compute_target
                          validation_status := some "valid" } }
                  else
                    { original_event := some s3Event
                      enrichment_data :=
                        { registered := false
                          validation_status := some "invalid"
                          validation_error := sv.error } }

/-- `handler`: the loop over the batch, one pushed output per input. -/
def handler (env : EnrichEnv) : List EnrichEvent → List EnrichedOutput
  | [] => []
  | e :: rest => enrichOne env e :: handler env rest

lemma handler_eq_map (env : EnrichEnv) (events : List EnrichEvent) :
    handler env events = events.map (enrichOne env) := by
  induction events with
  | nil => rfl
  | cons e rest ih => simp [handler, ih]

/-- C4: the enrichment handler returns exactly one decision per input, in
input order (`result[i]` is the decision for `input[i]`, for every batch
including the empty one and ones with malformed entries), and an exception
raised while enriching one event (a throwing `decodeURIComponent` in this
model) yields `registered:false` for that event only — the other positions
are unaffected. -/
theorem c4_handler_alignment (env : EnrichEnv) (events : List EnrichEvent) :
    (handler env events).length = events.length
    ∧ (∀ i : ℕ, (handler env events)[i]? = (events[i]?).map (enrichOne env))
    ∧ (∀ (i : ℕ) (record : S3EventRecord) (rest : List S3EventRecord),
        events[i]? = some { s3_event := some { Records := record :: rest } } →
        env.decodeKey record.objectInfo.key = none →
        (handler env events)[i]? =
          some { original_event := some { Records := record :: rest }
                 enrichment_data := notRegistered }) := by
  refine ⟨?_, ?_, ?_⟩
  · rw [handler_eq_map]
    exact List.length_map events (enrichOne env)
  · intro i
    rw [handler_eq_map]
    exact List.getElem?_map (enrichOne env) events i
  · intro i record rest hev hdec
    rw [handler_eq_map, List.getElem?_map (enrichOne env) events i, hev]
    simp [enrichOne, hdec]

/-- Environment for the C4 witness: `decodeURIComponent` throws on every
key. -/
def c4env : EnrichEnv :=
  { fetchRange := fun _ _ _ => Except.error "fetch refused"
    jsonParse := fun _ => none
    jsDateParse := fun _ => false
    jsNumberOk := fun _ => false
    jsString := fun _ => ""
    decodeKey := fun _ => none
    getConfig := fun _ => none }

def c4record : S3EventRecord :=
  { bucketName := "bkt", objectInfo := { key := "board%ZZ/file.csv", size := 1, eTag := "e1" } }

def c4event : EnrichEvent := { s3_event := some { Records := [c4record] } }

/-- Witness for C4 on a one-event batch whose key decoding throws. -/
theorem c4_handler_alignment_witness :
    (handler c4env [c4event])[0]? =
      some { original_event := some { Records := [c4record] }
             enrichment_data := notRegistered } :=
  (c4_handler_alignment c4env [c4event]).2.2 0 c4record [] rfl rfl

/-- C5: any unexpected error during structure validation — modelled as the
byte-range sample fetch throwing — yields `valid:true` with no error, for
every bucket, key and schema: the catch-all fail-open branch, never a
propagated exception. -/
theorem c5_validate_fail_open (env : EnrichEnv) (bucket key : String)
    (requiredColumns : List ColumnDef)
    (hfail : ∀ n : ℕ, ∃ e, env.fetchRange bucket key n = Except.error e) :
    validateFileStructure env bucket key requiredColumns =
      { valid := true, error := none } := by
  unfold validateFileStructure
  cases hempty : requiredColumns.isEmpty with
  | true => simp [hempty]
  | false =>
    by_cases hcsv : extOf key = ".csv"
    · obtain ⟨e, he⟩ := hfail 8192
      simp [hempty, hcsv, he]
    · by_cases hjson : extOf key = ".json"
      · obtain ⟨e, he⟩ := hfail 16384
        simp [hempty, hcsv, hjson, he]
      · simp [hempty, hcsv, hjson]

/-- Environment for the C5 witness: every fetch fails. -/
def c5env : EnrichEnv :=
  { fetchRange := fun _ _ _ => Except.error "connection reset"
    jsonParse := fun _ => none
    jsDateParse := fun _ => false
    jsNumberOk := fun _ => false
    jsString := fun _ => ""
    decodeKey := fun k => some k
    getConfig := fun _ => none }

/-- Witness for C5 on a CSV key with one required column. -/
theorem c5_validate_fail_open_witness :
    validateFileStructure c5env "bkt" "board/data.csv" [⟨"date", ColType.date⟩] =
      { valid := true, error := none } :=
  c5_validate_fail_open c5env "bkt" "board/data.csv" [⟨"date", ColType.date⟩]
    (fun _ => ⟨"connection reset", rfl⟩)

/-- Environment for the C10 counterexample: the 8 KiB sample fetch succeeds
and returns an empty body. -/
def c10env : EnrichEnv :=
  { fetchRange := fun _ _ _ => Except.ok ""
    jsonParse := fun _ => none
    jsDateParse := fun _ => false
    jsNumberOk := fun _ => false
    jsString := fun _ => ""
    decodeKey := fun k => some k
    getConfig := fun _ => none }

/-- C10 fails as stated for the empty CSV it quantifies over: an empty
sample (zero non-blank lines, hence fewer than two) is rejected with the
error `"Empty file"`, not `"CSV file missing header or data rows"`. -/
theorem c10_empty_sample_counterexample :
    validateFileStructure c10env "bkt" "board/empty.csv" [⟨"date", ColType.date⟩] =
      { valid := false, error := some "Empty file" }
    ∧ (some "Empty file" : Option String) ≠ some "CSV file missing header or data rows" := by
  refine ⟨rfl, ?_⟩
  decide

/-- C10 (amended): for a CSV key and a schema with at least one required
column, a sample with fewer than two non-blank lines is definitely rejected
(`valid:false`, never fail-open): with the error
`"CSV file missing header or data rows"` when the sample is non-empty, and
with the error `"Empty file"` when the sample is the empty string. -/
theorem c10_few_lines_rejected (env : EnrichEnv) (bucket key : String)
    (requiredColumns : List ColumnDef) (content : String)
    (hcols : requiredColumns.isEmpty = false)
    (hext : extOf key = ".csv")
    (hfetch : env.fetchRange bucket key 8192 = Except.ok content) :
    (content ≠ "" → (csvSampleLines content).length < 2 →
      validateFileStructure env bucket key requiredColumns =
        { valid := false, error := some "CSV file missing header or data rows" })
    ∧ (content = "" →
      validateFileStructure env bucket key requiredColumns =
        { valid := false, error := some "Empty file" }) := by
  constructor
  · intro hne hlen
    unfold validateFileStructure
    rcases hl : csvSampleLines content with _ | ⟨l0, _ | ⟨l1, tl⟩⟩
    · simp [hcols, hext, hfetch, hne, hl]
    · simp [hcols, hext, hfetch, hne, hl]
    · rw [hl] at hlen
      simp only [List.length_cons] at hlen
      omega
  · intro hz
    subst hz
    unfold validateFileStructure
    simp [hcols, hext, hfetch]

/-- Environment for the C10 amended-claim witness: the sample is a single
header line. -/
def c10envB : EnrichEnv :=
  { fetchRange := fun _ _ _ => Except.ok "name,date"
    jsonParse := fun _ => none
    jsDateParse := fun _ => false
    jsNumberOk := fun _ => false
    jsString := fun _ => ""
    decodeKey := fun k => some k
    getConfig := fun _ => none }

/-- Witness for the amended C10 on a header-only sample. -/
theorem c10_few_lines_rejected_witness :
    validateFileStructure c10envB "bkt" "board/short.csv" [⟨"date", ColType.date⟩] =
      { valid := false, error := some "CSV file missing header or data rows" } :=
  (c10_few_lines_rejected c10envB "bkt" "board/short.csv" [⟨"date", ColType.date⟩]
    "name,date" rfl rfl rfl).1 (by decide) (by decide)

/-! ## Push-mode SQS sensors

Two coexisting variants of `pollSensor`: the enrichment-aware one in
dagster_ts/src/sensor.ts, which collects receipt handles into its
`SensorOutput` and never deletes a message, and the older variant (the
second file of the unnamed sensor source), which calls
`sqs.deleteMessage(receiptHandle)` itself right after emitting a message's
run requests.  `JSON.parse` of a message body together with the
envelope-shape dispatch (`parsed.original_event && parsed.enrichment_data`)
is the `parseBody` oracle; a `none` result models a thrown SyntaxError.
Each model returns, alongside the sensor's declared output, the list of
receipt handles passed to `sqs.deleteMessage` during the poll, so deletion
behaviour is part of the observable result. -/

/-- An SQS message as the sensors see it. -/
structure SQSMessage where
  MessageId : Option String
  Body : Option String
  ReceiptHandle : Option String
deriving Repr, DecidableEq

/-- One entry of a parsed `Records` array, fields possibly absent. -/
structure RawS3Entry where
  bucket : Option String
  key : Option String
  size : Option ℕ
  eTag : Option String
deriving Repr, DecidableEq

/-- `enrichment_data` of an enriched envelope as the sensor reads it. -/
structure SensorEnrichment where
  registered : Bool
  dataset_id : Option String := none
  schema_version : Option String := none
  compute_target : Option String := none
deriving Repr, DecidableEq

/-- The JSON shape of a message body: an enriched envelope
(`{original_event, enrichment_data}`) or a raw S3 event (`{Records}`). -/
inductive ParsedBody
  | enriched (enrichment : SensorEnrichment) (records : List RawS3Entry)
  | raw (records : List RawS3Entry)
deriving Repr, DecidableEq

/-- Sensor environment: `JSON.parse` plus envelope dispatch, and the JS
formatting of `file_size_mb`. -/
structure SensorEnv where
  parseBody : String → Option ParsedBody
  mbString : ℕ → String

/-- A record produced by `parseS3Records`. -/
structure ParsedRecord where
  bucket : String
  key : String
  size : ℕ
  etag : String
  enrichment : Option SensorEnrichment
deriving Repr, DecidableEq

/-- The entry loop shared by both `parseS3Records` variants: keep entries
whose bucket and key are truthy (present, non-empty), defaulting
`size ?? 0` and `eTag ?? ""`. -/
def parseEntries (entries : List RawS3Entry) (ed : Option SensorEnrichment) :
    List ParsedRecord :=
  entries.filterMap
    (fun e =>
      match e.bucket, e.key with
      | some b, some k =>
        if b == "" || k == "" then none
        else some { bucket := b, key := k, size := e.size.getD 0
                    etag := e.eTag.getD "", enrichment := ed }
      | _, _ => none)

/-- `parseS3Records` of dagster_ts/src/sensor.ts: enriched envelopes attach
their enrichment data to every record; raw events attach none. -/
def parseS3Records : ParsedBody → List ParsedRecord
  | ParsedBody.enriched ed records => parseEntries records (some ed)
  | ParsedBody.raw records => parseEntries records none

/-- `parseS3Records` of the older sensor: it only reads a top-level
`Records` array, so an enriched envelope yields no records. -/
def legacyParseS3Records : ParsedBody → List ParsedRecord
  | ParsedBody.raw records => parseEntries records none
  | ParsedBody.enriched _ _ => []

/-- `record.enrichment_data?.compute_target`. -/
def sensorComputeTarget (r : ParsedRecord) : Option String :=
  match r.enrichment with
  | some ed => ed.compute_target
  | none => none

/-- Routing in the enrichment-aware sensor: forced LAMBDA, else size-based. -/
def sensorTaskSize (r : ParsedRecord) : String :=
  if sensorComputeTarget r = some "LAMBDA" then "lambda"
  else resourceGetRecommendedTaskSize r.size

/-- A conditionally spread tag (`...(v && {name: v})`): present iff the
value is present and truthy. -/
def optTag (name : String) (v : Option String) : List (String × String) :=
  match v with
  | some s => if s = "" then [] else [(name, s)]
  | none => []

/-- `record.enrichment_data?.dataset_id`. -/
def sensorDatasetId (r : ParsedRecord) : Option String :=
  match r.enrichment with
  | some ed => ed.dataset_id
  | none => none

/-- `record.enrichment_data?.schema_version`. -/
def sensorSchemaVersion (r : ParsedRecord) : Option String :=
  match r.enrichment with
  | some ed => ed.schema_version
  | none => none

/-- The RunRequest pushed by the enrichment-aware sensor. -/
def mkSensorRunRequest (env : SensorEnv) (r : ParsedRecord) : RunRequest :=
  let taskSize := sensorTaskSize r
  { runKey := r.bucket ++ "/" ++ r.key ++ "/" ++ r.etag
    config := { s3Bucket := r.bucket, s3Key := r.key, taskSize := some taskSize }
    tags := [("s3_bucket", r.bucket), ("s3_key", r.key),
             ("file_size_mb", env.mbString r.size), ("task_size", taskSize)]
      ++ optTag "dataset_id" (sensorDatasetId r)
      ++ optTag "schema_version" (sensorSchemaVersion r) }

/-- The RunRequest pushed by the older sensor (no enrichment tags). -/
def mkLegacyRunRequest (env : SensorEnv) (r : ParsedRecord) : RunRequest :=
  let taskSize := resourceGetRecommendedTaskSize r.size
  { runKey := r.bucket ++ "/" ++ r.key ++ "/" ++ r.etag
    config := { s3Bucket := r.bucket, s3Key := r.key, taskSize := some taskSize }
    tags := [("s3_bucket", r.bucket), ("s3_key", r.key),
             ("file_size_mb", env.mbString r.size), ("task_size", taskSize)] }

/-- Skip records an enriched envelope marked unregistered. -/
def keepRecord (r : ParsedRecord) : Bool :=
  match r.enrichment with
  | some ed => ed.registered
  | none => true

/-- One message iteration of the enrichment-aware `pollSensor`
(dagster_ts/src/sensor.ts): the accumulator is
(run requests, collected receipt handles); no body or a parse failure skips
the message (its handle is not collected); otherwise the registered
records' run requests are pushed and the message's receipt handle (when
present) is collected for the caller.  No `sqs.deleteMessage` call occurs. -/
def pushStep (env : SensorEnv) (acc : List RunRequest × List String)
    (m : SQSMessage) : List RunRequest × List String :=
  match m.Body with
  | none => acc
  | some body =>
    match env.parseBody body with
    | none => acc
    | some parsed =>
      let newReqs := ((parseS3Records parsed).filter keepRecord).map
        (mkSensorRunRequest env)
      match m.ReceiptHandle with
      | some rh => (acc.1 ++ newReqs, acc.2 ++ [rh])
      | none => (acc.1 ++ newReqs, acc.2)

/-- `SensorOutput` plus the receipt handles the poll passed to
`sqs.deleteMessage` (an observation of the model, always empty for this
variant). -/
structure SensorOutput where
  runRequests : List RunRequest
  receiptHandles : List String
  deletedHandles : List String
deriving Repr, DecidableEq

/-- `pollSensor` of dagster_ts/src/sensor.ts. -/
def pollSensorPush (env : SensorEnv) (messages : List SQSMessage) : SensorOutput :=
  let res := messages.foldl (pushStep env) ([], [])
  { runRequests := res.1, receiptHandles := res.2, deletedHandles := [] }

/-- One message iteration of the older `pollSensor`: after pushing a parsed
message's run requests it immediately calls
`sqs.deleteMessage(message.ReceiptHandle)`; the accumulator is
(run requests, deleted handles).  A missing body or a parse error skips the
message without deleting it. -/
def legacyStep (env : SensorEnv) (acc : List RunRequest × List String)
    (m : SQSMessage) : List RunRequest × List String :=
  match m.Body with
  | none => acc
  | some body =>
    match env.parseBody body with
    | none => acc
    | some parsed =>
      let newReqs := (legacyParseS3Records parsed).map (mkLegacyRunRequest env)
      match m.ReceiptHandle with
      | some rh => (acc.1 ++ newReqs, acc.2 ++ [rh])
      | none => (acc.1 ++ newReqs, acc.2)

/-- The older `pollSensor`: returns its run requests and, as the model's
second component, the receipt handles it deleted itself. -/
def pollSensorLegacy (env : SensorEnv) (messages : List SQSMessage) :
    List RunRequest × List String :=
  messages.foldl (legacyStep env) ([], [])

/-- A message's receipt handle is collected iff its body is present and
parses. -/
def collectsHandle (env : SensorEnv) (m : SQSMessage) : Bool :=
  match m.Body with
  | none => false
  | some body => (env.parseBody body).isSome

lemma pushStep_handles (env : SensorEnv) (messages : List SQSMessage)
    (rs : List RunRequest) (hs : List String) :
    (messages.foldl (pushStep env) (rs, hs)).2 =
      hs ++ (messages.filter (collectsHandle env)).filterMap
        (fun m => m.ReceiptHandle) := by
  induction messages generalizing rs hs with
  | nil => simp
  | cons m rest ih =>
    simp only [List.foldl_cons]
    rcases hb : m.Body with _ | body
    · have hc : collectsHandle env m = false := by
        unfold collectsHandle
        rw [hb]
      have hstep : pushStep env (rs, hs) m = (rs, hs) := by
        unfold pushStep
        rw [hb]
      rw [hstep, ih, List.filter_cons_of_neg (by rw [hc]; decide)]
    · rcases hp : env.parseBody body with _ | parsed
      · have hc : collectsHandle env m = false := by
          unfold collectsHandle
          simp only [hb, hp, Option.isSome_none, Option.isSome_some]
        have hstep : pushStep env (rs, hs) m = (rs, hs) := by
          unfold pushStep
          simp only [hb, hp]
        rw [hstep, ih, List.filter_cons_of_neg (by rw [hc]; decide)]
      · have hc : collectsHandle env m = true := by
          unfold collectsHandle
          simp only [hb, hp, Option.isSome_none, Option.isSome_some]
        rcases hrh : m.ReceiptHandle with _ | rh
        · have hstep : pushStep env (rs, hs) m =
              (rs ++ ((parseS3Records parsed).filter keepRecord).map
                (mkSensorRunRequest env), hs) := by
            unfold pushStep
            simp only [hb, hp, hrh]
          rw [hstep, ih, List.filter_cons_of_pos (by rw [hc])]
          simp [List.filterMap_cons, hrh]
        · have hstep : pushStep env (rs, hs) m =
              (rs ++ ((parseS3Records parsed).filter keepRecord).map
                (mkSensorRunRequest env), hs ++ [rh]) := by
            unfold pushStep
            simp only [hb, hp, hrh]
          rw [hstep, ih, List.filter_cons_of_pos (by rw [hc])]
          simp [List.filterMap_cons, hrh]

lemma legacyStep_handles (env : SensorEnv) (messages : List SQSMessage)
    (rs : List RunRequest) (hs : List String) :
    (messages.foldl (legacyStep env) (rs, hs)).2 =
      hs ++ (messages.filter (collectsHandle env)).filterMap
        (fun m => m.ReceiptHandle) := by
  induction messages generalizing rs hs with
  | nil => simp
  | cons m rest ih =>
    simp only [List.foldl_cons]
    rcases hb : m.Body with _ | body
    · have hc : collectsHandle env m = false := by
        unfold collectsHandle
        rw [hb]
      have hstep : legacyStep env (rs, hs) m = (rs, hs) := by
        unfold legacyStep
        rw [hb]
      rw [hstep, ih, List.filter_cons_of_neg (by rw [hc]; decide)]
    · rcases hp : env.parseBody body with _ | parsed
      · have hc : collectsHandle env m = false := by
          unfold collectsHandle
          simp only [hb, hp, Option.isSome_none, Option.isSome_some]
        have hstep : legacyStep env (rs, hs) m = (rs, hs) := by
          unfold legacyStep
          simp only [hb, hp]
        rw [hstep, ih, List.filter_cons_of_neg (by rw [hc]; decide)]
      · have hc : collectsHandle env m = true := by
          unfold collectsHandle
          simp only [hb, hp, Option.isSome_none, Option.isSome_some]
        rcases hrh : m.ReceiptHandle with _ | rh
        · have hstep : legacyStep env (rs, hs) m =
              (rs ++ (legacyParseS3Records parsed).map (mkLegacyRunRequest env), hs) := by
            unfold legacyStep
            simp only [hb, hp, hrh]
          rw [hstep, ih, List.filter_cons_of_pos (by rw [hc])]
          simp [List.filterMap_cons, hrh]
        · have hstep : legacyStep env (rs, hs) m =
              (rs ++ (legacyParseS3Records parsed).map (mkLegacyRunRequest env),
               hs ++ [rh]) := by
            unfold legacyStep
            simp only [hb, hp, hrh]
          rw [hstep, ih, List.filter_cons_of_pos (by rw [hc])]
          simp [List.filterMap_cons, hrh]

/-- C8 counterexample input: one well-formed raw message with a receipt
handle, polled by the older sensor. -/
def c8env : SensorEnv :=
  { parseBody := fun _ =>
      some (ParsedBody.raw
        [{ bucket := some "bkt", key := some "board/f.csv"
           size := some 5, eTag := some "e7" }])
    mbString := fun _ => "0" }

def c8msg : SQSMessage :=
  { MessageId := some "m1", Body := some "{...}", ReceiptHandle := some "rh1" }

/-- C8 fails as stated: the repository's older push-mode `pollSensor`
deletes the source message itself — it passes the polled message's receipt
handle to `sqs.deleteMessage` during the poll, before any caller handoff,
and returns no receipt handles. -/
theorem c8_legacy_deletes_counterexample :
    (pollSensorLegacy c8env [c8msg]).2 = ["rh1"]
    ∧ (["rh1"] : List String) ≠ [] := by
  refine ⟨rfl, ?_⟩
  decide

/-- C8 (amended): the enrichment-aware push-mode `pollSensor`
(dagster_ts/src/sensor.ts) deletes no source queue message itself — its
delete-call list is empty for every polled batch — and returns exactly the
receipt handles of the messages whose body was present and parsed, for the
caller to delete after the RunRequests are durably handed off
(at-least-once); the older sensor variant instead deletes each
successfully-parsed message's receipt handle itself during the poll. -/
theorem c8_push_no_delete (env : SensorEnv) (messages : List SQSMessage) :
    (pollSensorPush env messages).deletedHandles = []
    ∧ (pollSensorPush env messages).receiptHandles =
        (messages.filter (collectsHandle env)).filterMap (fun m => m.ReceiptHandle)
    ∧ (pollSensorLegacy env messages).2 =
        (messages.filter (collectsHandle env)).filterMap (fun m => m.ReceiptHandle) := by
  refine ⟨rfl, ?_, ?_⟩
  · show (messages.foldl (pushStep env) ([], [])).2 = _
    rw [pushStep_handles env messages [] []]
    rfl
  · show (messages.foldl (legacyStep env) ([], [])).2 = _
    rw [legacyStep_handles env messages [] []]
    rfl

/-! ## Worker file processor

`FileProcessor.process` and its `processCsv`/`processJson`/`processBinary`
strategies (worker/src/index.ts), over `S3ChunkedReader.streamLines` and
`processInChunks`.  The run's observable behaviour is a `WorkerTrace`: the
created state record, the sequence of `updateStatus` calls that follows it,
the terminal Dagster Pipes reports, and the returned `ProcessingResult`
(`main` exits with code 0/1 from `result.success`).  Oracles: the
HeadObject metadata fetch, the streamed object body (`streamLines`
reassembles the S3 stream's chunks into exactly the non-blank lines of the
full body, so the model takes the full body), the binary path's per-chunk
range fetches, `JSON.parse`, the `TASK_SIZE` environment variable (with its
`|| "small"` default applied), and the clock (all of one run's timestamps
are abstracted to the single instant `now`; `durationMs` is wall-clock and
oracle-supplied).  The parsed row objects handed to the no-op `processBatch`
hook do not affect the trace and are not recorded. -/

/-- `S3FileInfo` as `process` uses it (bucket/key come from the config). -/
structure WorkerFileInfo where
  size : ℕ
  contentType : Option String
deriving Repr, DecidableEq

/-- `WorkerConfig` from worker/src/index.ts. -/
structure WorkerConfig where
  bucket : String
  key : String
  chunkSizeMB : ℕ
  dagsterRunId : Option String
deriving Repr, DecidableEq

/-- The worker's environment oracles. -/
structure WorkerEnv where
  fileInfo : Except String WorkerFileInfo
  content : Except String String
  fetchChunk : ℕ → Except String Unit
  jsonParse : String → Option Jsn
  taskSizeEnv : String
  now : ℕ
  durationMs : ℕ

/-- Terminal Dagster Pipes reports of one run. -/
inductive Report
  | assetMaterialization (asset : String)
  | success
  | failure (message : String)
deriving Repr, DecidableEq

/-- `ProcessingResult` from worker/src/index.ts. -/
structure ProcessingResult where
  success : Bool
  rowCount : ℕ
  bytesProcessed : ℕ
  chunksProcessed : ℕ
  durationMs : ℕ
  error : Option String
deriving Repr, DecidableEq

/-- Format dispatch of `processFileInChunks` (worker/src/index.ts:
content-type `includes` or key extension, else binary). -/
inductive FileFormat
  | csv
  | json
  | binary
deriving Repr, DecidableEq

def chooseFormat (contentType : Option String) (key : String) : FileFormat :=
  let ct := jsToLower (contentType.getD "")
  if jsIncludes ct "csv" || jsEndsWith key ".csv" then FileFormat.csv
  else if jsIncludes ct "json" || jsEndsWith key ".json" then FileFormat.json
  else FileFormat.binary

/-- `streamLines`: the non-blank lines of the object body, in order. -/
def streamedLines (content : String) : List String :=
  (jsSplit '\n' content).filter (fun l => jsTrim l != "")

/-- The `updateProgress` store write (status PROCESSING with chunk/row
progress fields). -/
def progressUpdate (chunksProcessed totalChunks rowCount now : ℕ) : StoreUpdate :=
  { status := IngestStatus.PROCESSING
    updates := { chunksProcessed := some chunksProcessed
                 totalChunks := some totalChunks
                 rowCount := some rowCount }
    time := now }

/-- Accumulator of the CSV data-row loop. -/
structure CsvAcc where
  bytes : ℕ
  rows : ℕ
  batchLen : ℕ
  ops : List StoreUpdate
deriving Repr, DecidableEq

/-- One data row of `processCsv`: count its bytes, add it to the batch; a
full batch of 1000 flushes, and every 10000 rows the flush also checkpoints
progress (`MB so far` / `ceil(size in MB)` / row count). -/
def csvStep (fileSize now : ℕ) (acc : CsvAcc) (line : String) : CsvAcc :=
  let bytes := acc.bytes + line.utf8ByteSize
  let rows := acc.rows + 1
  let batchLen := acc.batchLen + 1
  if 1000 ≤ batchLen then
    { bytes := bytes, rows := rows, batchLen := 0
      ops :=
        if rows % 10000 == 0 then
          acc.ops ++ [progressUpdate (bytes / (1024 * 1024))
            ((fileSize + 1024 * 1024 - 1) / (1024 * 1024)) rows now]
        else acc.ops }
  else { bytes := bytes, rows := rows, batchLen := batchLen, ops := acc.ops }

/-- `processCsv` on a successfully opened stream: the first non-blank line
is the header (its bytes counted, no row), every further non-blank line is
one row.  Returns (bytesProcessed, rowCount, progress writes). -/
def csvRun (fileSize now : ℕ) (content : String) : ℕ × ℕ × List StoreUpdate :=
  match streamedLines content with
  | [] => (0, 0, [])
  | header :: dataLines =>
    let acc := dataLines.foldl (csvStep fileSize now)
      { bytes := header.utf8ByteSize, rows := 0, batchLen := 0, ops := [] }
    (acc.bytes, acc.rows, acc.ops)

/-- Accumulator of the JSON record loops. -/
structure RecAcc where
  rows : ℕ
  batchLen : ℕ
  ops : List StoreUpdate
deriving Repr, DecidableEq

/-- One record of the JSON-array / JSON-lines loops (progress total is the
array length resp. the split line count). -/
def recordStep (total now : ℕ) (acc : RecAcc) : RecAcc :=
  let rows := acc.rows + 1
  let batchLen := acc.batchLen + 1
  if 1000 ≤ batchLen then
    { rows := rows, batchLen := 0
      ops :=
        if rows % 10000 == 0 then
          acc.ops ++ [progressUpdate rows total rows now]
        else acc.ops }
  else { rows := rows, batchLen := batchLen, ops := acc.ops }

/-- One element of the parsed JSON array (its value does not affect the
trace). -/
def jsonArrayStep (total now : ℕ) (acc : RecAcc) (_ : Jsn) : RecAcc :=
  recordStep total now acc

/-- One split line of the JSON-Lines fallback: blank lines and lines that
fail to parse are skipped silently. -/
def jsonlStep (env : WorkerEnv) (total now : ℕ) (acc : RecAcc) (line : String) :
    RecAcc :=
  if jsTrim line == "" then acc
  else
    match env.jsonParse (jsTrim line) with
    | some _ => recordStep total now acc
    | none => acc

/-- `processJson` on a successfully opened stream: the whole stream is
buffered (each streamed line plus a newline), then parsed once as JSON; an
array yields one row per element, any other JSON value is a single record,
and a parse failure falls back to JSON-Lines (invalid lines silently
skipped).  Returns (bytesProcessed, rowCount, progress writes). -/
def jsonRun (env : WorkerEnv) (now : ℕ) (content : String) :
    ℕ × ℕ × List StoreUpdate :=
  let entireContent := String.join ((streamedLines content).map (fun l => l ++ "\n"))
  let bytes := entireContent.utf8ByteSize
  match env.jsonParse entireContent with
  | some (Jsn.arr items) =>
    let acc := items.foldl (jsonArrayStep items.length now)
      { rows := 0, batchLen := 0, ops := [] }
    (bytes, acc.rows, acc.ops)
  | some _ => (bytes, 1, [])
  | none =>
    let lines := jsSplit '\n' entireContent
    let acc := lines.foldl (jsonlStep env lines.length now)
      { rows := 0, batchLen := 0, ops := [] }
    (bytes, acc.rows, acc.ops)

/-- The per-chunk callback of `processBinary`: `rowCount += data.length`,
then `updateProgress(chunkIndex+1, totalChunks, rowCount)`. -/
def binaryStep (now : ℕ) (acc : ℕ × List StoreUpdate) (ci : ChunkInfo) :
    ℕ × List StoreUpdate :=
  (acc.1 + ci.size,
   acc.2 ++ [progressUpdate (ci.chunkIndex + 1) ci.totalChunks (acc.1 + ci.size) now])

/-- Folds the invoked chunks into (rowCount, progress writes). -/
def binaryOps (now : ℕ) (infos : List ChunkInfo) : ℕ × List StoreUpdate :=
  infos.foldl (binaryStep now) (0, [])

/-- Outcome of `processFileInChunks`: bytes/chunks/rows and the progress
writes on success, or the thrown message with the partial row count and
progress writes on failure. -/
inductive ProcOutcome
  | ok (bytesProcessed chunksProcessed rowCount : ℕ) (ops : List StoreUpdate)
  | err (message : String) (rowCount : ℕ) (ops : List StoreUpdate)
deriving Repr, DecidableEq

/-- `FileProcessor.processFileInChunks`: dispatch on format; the CSV and
JSON paths throw only when opening the stream fails, the binary path
aborts when a chunk's range fetch fails. -/
def processFileInChunks (env : WorkerEnv) (config : WorkerConfig)
    (info : WorkerFileInfo) : ProcOutcome :=
  match chooseFormat info.contentType config.key with
  | FileFormat.csv =>
    match env.content with
    | Except.error e => ProcOutcome.err e 0 []
    | Except.ok content =>
      let r := csvRun info.size env.now content
      ProcOutcome.ok r.1 1 r.2.1 r.2.2
  | FileFormat.json =>
    match env.content with
    | Except.error e => ProcOutcome.err e 0 []
    | Except.ok content =>
      let r := jsonRun env env.now content
      ProcOutcome.ok r.1 1 r.2.1 r.2.2
  | FileFormat.binary =>
    let chunkSize := config.chunkSizeMB * 1024 * 1024
    let run := processInChunks info.size chunkSize env.fetchChunk
    let br := binaryOps env.now run.1
    match run.2 with
    | none => ProcOutcome.ok br.1 (totalChunksOf info.size chunkSize) br.1 br.2
    | some e => ProcOutcome.err e br.1 br.2

/-- The observable trace of one `FileProcessor.process` run. -/
structure WorkerTrace where
  created : Option StateRecord
  updates : List StoreUpdate
  reports : List Report
  result : ProcessingResult
deriving Repr, DecidableEq

/-- `FileProcessor.process`: get metadata, create the PENDING record, move
it to PROCESSING, run the format strategy, then `markCompleted` and report
success — or, in the catch, `markFailed` with the error message (when the
record exists), report failure, and return `success:false`. -/
def process (env : WorkerEnv) (config : WorkerConfig) : WorkerTrace :=
  match env.fileInfo with
  | Except.error e =>
    { created := none
      updates := []
      reports := [Report.failure e]
      result := { success := false, rowCount := 0, bytesProcessed := 0
                  chunksProcessed := 0, durationMs := env.durationMs, error := some e } }
  | Except.ok info =>
    let state := createIngestState config.bucket config.key info.size
      config.dagsterRunId (some env.taskSizeEnv) env.now
    let procUpdate : StoreUpdate :=
      { status := IngestStatus.PROCESSING, updates := {}, time := env.now }
    match processFileInChunks env config info with
    | ProcOutcome.ok bytes chunks rows ops =>
      { created := some state
        updates := [procUpdate] ++ ops ++
          [{ status := IngestStatus.COMPLETED
             updates := { rowCount := some rows
                          metadata := some [("bytesProcessed", bytes),
                            ("chunksProcessed", chunks), ("durationMs", env.durationMs)] }
             time := env.now }]
        reports := [Report.assetMaterialization (config.bucket ++ "/" ++ config.key),
          Report.success]
        result := { success := true, rowCount := rows, bytesProcessed := bytes
                    chunksProcessed := chunks, durationMs := env.durationMs
                    error := none } }
    | ProcOutcome.err e rows ops =>
      { created := some state
        updates := [procUpdate] ++ ops ++
          [{ status := IngestStatus.FAILED
             updates := { errorMessage := some e }
             time := env.now }]
        reports := [Report.failure e]
        result := { success := false, rowCount := rows, bytesProcessed := 0
                    chunksProcessed := 0, durationMs := env.durationMs
                    error := some e } }

/-- `main` exits 0 on success, 1 otherwise. -/
def workerExitCode (r : ProcessingResult) : ℕ :=
  if r.success then 0 else 1

/-- All writes in a list of store updates carry status PROCESSING. -/
def allProcessing (ops : List StoreUpdate) : Prop :=
  ∀ op ∈ ops, op.status = IngestStatus.PROCESSING

lemma allProcessing_append_progress (ops : List StoreUpdate) (c t r n : ℕ)
    (h : allProcessing ops) :
    allProcessing (ops ++ [progressUpdate c t r n]) := by
  intro op hop
  rcases List.mem_append.1 hop with h1 | h1
  · exact h op h1
  · rcases List.mem_singleton.1 h1 with rfl
    rfl

lemma recordStep_ops (total now : ℕ) (acc : RecAcc) :
    (recordStep total now acc).ops = acc.ops
    ∨ (recordStep total now acc).ops =
        acc.ops ++ [progressUpdate (acc.rows + 1) total (acc.rows + 1) now] := by
  unfold recordStep
  dsimp only
  split
  · split
    · right
      rfl
    · left
      rfl
  · left
    rfl

lemma csvStep_ops (fileSize now : ℕ) (acc : CsvAcc) (line : String) :
    (csvStep fileSize now acc line).ops = acc.ops
    ∨ ∃ c t, (csvStep fileSize now acc line).ops =
        acc.ops ++ [progressUpdate c t (acc.rows + 1) now] := by
  unfold csvStep
  dsimp only
  split
  · split
    · right
      exact ⟨_, _, rfl⟩
    · left
      rfl
  · left
    rfl

lemma csvStep_rows (fileSize now : ℕ) (acc : CsvAcc) (line : String) :
    (csvStep fileSize now acc line).rows = acc.rows + 1 := by
  unfold csvStep
  dsimp only
  split
  · rfl
  · rfl

lemma jsonlStep_ops (env : WorkerEnv) (total now : ℕ) (acc : RecAcc) (line : String) :
    (jsonlStep env total now acc line).ops = acc.ops
    ∨ (jsonlStep env total now acc line).ops =
        acc.ops ++ [progressUpdate (acc.rows + 1) total (acc.rows + 1) now] := by
  unfold jsonlStep
  split
  · left
    rfl
  · split
    · exact recordStep_ops total now acc
    · left
      rfl

lemma csvFold_processing (fileSize now : ℕ) (lines : List String) (acc : CsvAcc)
    (h : allProcessing acc.ops) :
    allProcessing ((lines.foldl (csvStep fileSize now) acc).ops) := by
  induction lines generalizing acc with
  | nil => exact h
  | cons l rest ih =>
    refine ih (csvStep fileSize now acc l) ?_
    rcases csvStep_ops fileSize now acc l with heq | ⟨c, t, heq⟩
    · rw [heq]
      exact h
    · rw [heq]
      exact allProcessing_append_progress _ _ _ _ _ h

lemma csvFold_rows (fileSize now : ℕ) (lines : List String) (acc : CsvAcc) :
    (lines.foldl (csvStep fileSize now) acc).rows = acc.rows + lines.length := by
  induction lines generalizing acc with
  | nil => rfl
  | cons l rest ih =>
    rw [List.foldl_cons, ih, csvStep_rows]
    simp only [List.length_cons]
    omega

lemma jsonArrayFold_processing (total now : ℕ) (items : List Jsn) (acc : RecAcc)
    (h : allProcessing acc.ops) :
    allProcessing ((items.foldl (jsonArrayStep total now) acc).ops) := by
  induction items generalizing acc with
  | nil => exact h
  | cons x rest ih =>
    refine ih (jsonArrayStep total now acc x) ?_
    rcases recordStep_ops total now acc with heq | heq
    · rw [show (jsonArrayStep total now acc x).ops = (recordStep total now acc).ops from rfl, heq]
      exact h
    · rw [show (jsonArrayStep total now acc x).ops = (recordStep total now acc).ops from rfl, heq]
      exact allProcessing_append_progress _ _ _ _ _ h

lemma jsonlFold_processing (env : WorkerEnv) (total now : ℕ) (lines : List String)
    (acc : RecAcc) (h : allProcessing acc.ops) :
    allProcessing ((lines.foldl (jsonlStep env total now) acc).ops) := by
  induction lines generalizing acc with
  | nil => exact h
  | cons l rest ih =>
    refine ih (jsonlStep env total now acc l) ?_
    rcases jsonlStep_ops env total now acc l with heq | heq
    · rw [heq]
      exact h
    · rw [heq]
      exact allProcessing_append_progress _ _ _ _ _ h

lemma binaryFold_processing (now : ℕ) (infos : List ChunkInfo)
    (acc : ℕ × List StoreUpdate) (h : allProcessing acc.2) :
    allProcessing ((infos.foldl (binaryStep now) acc).2) := by
  induction infos generalizing acc with
  | nil => exact h
  | cons ci rest ih =>
    refine ih (binaryStep now acc ci) ?_
    exact allProcessing_append_progress _ _ _ _ _ h

lemma csvRun_ops_processing (fileSize now : ℕ) (content : String) :
    allProcessing (csvRun fileSize now content).2.2 := by
  unfold csvRun
  rcases streamedLines content with _ | ⟨header, dataLines⟩
  · intro op hop
    cases hop
  · exact csvFold_processing fileSize now dataLines _ (fun op hop => by cases hop)

lemma jsonRun_ops_processing (env : WorkerEnv) (now : ℕ) (content : String) :
    allProcessing (jsonRun env now content).2.2 := by
  unfold jsonRun
  rcases hj : env.jsonParse (String.join ((streamedLines content).map (fun l => l ++ "\n")))
      with _ | j
  · simp only [hj]
    exact jsonlFold_processing env _ now _ _ (fun op hop => by cases hop)
  · rcases j with _ | b | q | str | elems | fields
    case arr =>
      simp only [hj]
      exact jsonArrayFold_processing _ now elems _ (fun o ho => by cases ho)
    all_goals simp only [hj]
    all_goals intro op hop
    all_goals cases hop

lemma processFileInChunks_err_ops (env : WorkerEnv) (config : WorkerConfig)
    (info : WorkerFileInfo) (e : String) (rows : ℕ) (ops : List StoreUpdate)
    (h : processFileInChunks env config info = ProcOutcome.err e rows ops) :
    allProcessing ops := by
  unfold processFileInChunks at h
  rcases hfmt : chooseFormat info.contentType config.key with _ | _ | _
  · rw [hfmt] at h
    rcases hc : env.content with ec | content
    · simp only [hc] at h
      cases h
      intro op hop
      cases hop
    · simp only [hc] at h
      cases h
  · rw [hfmt] at h
    rcases hc : env.content with ec | content
    · simp only [hc] at h
      cases h
      intro op hop
      cases hop
    · simp only [hc] at h
      cases h
  · rw [hfmt] at h
    rcases hrun : (processInChunks info.size (config.chunkSizeMB * 1024 * 1024)
        env.fetchChunk).2 with _ | msg
    · simp only [hrun] at h
      cases h
    · simp only [hrun] at h
      cases h
      exact binaryFold_processing env.now _ _ (fun op hop => by cases hop)

/-- C6: if any exception is thrown during file processing after the state
record was created (the format strategy fails), the processor marks that
record FAILED with the error message (stamping `completedAt`), reports the
failure to the Dagster observer, and returns `success:false` (so the worker
exits non-zero); no COMPLETED write ever appears in that run's store
trace. -/
theorem c6_failure_marks_failed (env : WorkerEnv) (config : WorkerConfig)
    (info : WorkerFileInfo) (e : String) (rows : ℕ) (ops : List StoreUpdate)
    (hinfo : env.fileInfo = Except.ok info)
    (hproc : processFileInChunks env config info = ProcOutcome.err e rows ops) :
    (process env config).result.success = false
    ∧ workerExitCode (process env config).result = 1
    ∧ (process env config).result.error = some e
    ∧ Report.failure e ∈ (process env config).reports
    ∧ (∃ r₀, (process env config).created = some r₀
        ∧ (applySeq r₀ (process env config).updates).status = IngestStatus.FAILED
        ∧ (applySeq r₀ (process env config).updates).errorMessage = some e
        ∧ (applySeq r₀ (process env config).updates).completedAt = some env.now)
    ∧ (∀ op ∈ (process env config).updates, op.status ≠ IngestStatus.COMPLETED) := by
  have hops := processFileInChunks_err_ops env config info e rows ops hproc
  have hp : process env config =
      { created := some (createIngestState config.bucket config.key info.size
          config.dagsterRunId (some env.taskSizeEnv) env.now)
        updates := [{ status := IngestStatus.PROCESSING, updates := {}, time := env.now }]
          ++ ops ++
          [{ status := IngestStatus.FAILED
             updates := { errorMessage := some e }
             time := env.now }]
        reports := [Report.failure e]
        result := { success := false, rowCount := rows, bytesProcessed := 0
                    chunksProcessed := 0, durationMs := env.durationMs
                    error := some e } } := by
    unfold process
    simp only [hinfo, hproc]
  rw [hp]
  refine ⟨rfl, rfl, rfl, List.mem_singleton_self _, ?_, ?_⟩
  · refine ⟨_, rfl, ?_⟩
    rw [show ([{ status := IngestStatus.PROCESSING, updates := {}, time := env.now }]
        ++ ops ++
        [({ status := IngestStatus.FAILED, updates := { errorMessage := some e }
            time := env.now } : StoreUpdate)])
      = ([{ status := IngestStatus.PROCESSING, updates := {}, time := env.now }] ++ ops) ++
        [({ status := IngestStatus.FAILED, updates := { errorMessage := some e }
            time := env.now } : StoreUpdate)] from rfl]
    rw [applySeq_append_single]
    refine ⟨updateStatusRecord_status _ _ _ _, ?_, ?_⟩
    · rw [applyUpdate, updateStatusRecord_errorMessage]
      rfl
    · rw [applyUpdate, updateStatusRecord_completedAt]
      rfl
  · intro op hop
    rcases List.mem_append.1 hop with h1 | h1
    · rcases List.mem_append.1 h1 with h2 | h2
      · rcases List.mem_singleton.1 h2 with rfl
        intro hcontra
        cases hcontra
      · rw [hops op h2]
        intro hcontra
        cases hcontra
    · rcases List.mem_singleton.1 h1 with rfl
      intro hcontra
      cases hcontra

/-- Witness environment for C6: a binary object of three 1 MiB chunks whose
range fetch fails on chunk 2. -/
def c6config : WorkerConfig :=
  { bucket := "bkt", key := "board/blob.bin", chunkSizeMB := 1, dagsterRunId := some "run1" }

def c6env : WorkerEnv :=
  { fileInfo := Except.ok { size := 3 * 1048576, contentType := none }
    content := Except.error "stream untouched"
    fetchChunk := fun i => if i == 0 then Except.ok () else Except.error "range fetch reset"
    jsonParse := fun _ => none
    taskSizeEnv := "small"
    now := 100
    durationMs := 5 }

/-- Witness for C6: the trace of the failing binary run. -/
theorem c6_failure_marks_failed_witness :
    (process c6env c6config).result.success = false
    ∧ workerExitCode (process c6env c6config).result = 1
    ∧ (process c6env c6config).result.error = some "range fetch reset" :=
  ⟨(c6_failure_marks_failed c6env c6config { size := 3 * 1048576, contentType := none }
      "range fetch reset" 1048576 [progressUpdate 1 3 1048576 100] rfl (by decide)).1,
   (c6_failure_marks_failed c6env c6config { size := 3 * 1048576, contentType := none }
      "range fetch reset" 1048576 [progressUpdate 1 3 1048576 100] rfl (by decide)).2.1,
   (c6_failure_marks_failed c6env c6config { size := 3 * 1048576, contentType := none }
      "range fetch reset" 1048576 [progressUpdate 1 3 1048576 100] rfl (by decide)).2.2.1⟩

/-- C9: for a CSV file processed successfully, the reported rowCount equals
the number of non-header, non-blank lines of the file, and the run's final
state record is COMPLETED with `completedAt` stamped and a stored rowCount
equal to the reported one. -/
theorem c9_csv_rowCount (env : WorkerEnv) (config : WorkerConfig)
    (info : WorkerFileInfo) (content header : String) (dataLines : List String)
    (hinfo : env.fileInfo = Except.ok info)
    (hfmt : chooseFormat info.contentType config.key = FileFormat.csv)
    (hcontent : env.content = Except.ok content)
    (hlines : streamedLines content = header :: dataLines) :
    (process env config).result.success = true
    ∧ (process env config).result.rowCount = dataLines.length
    ∧ workerExitCode (process env config).result = 0
    ∧ (∃ r₀, (process env config).created = some r₀
        ∧ (applySeq r₀ (process env config).updates).status = IngestStatus.COMPLETED
        ∧ (applySeq r₀ (process env config).updates).completedAt = some env.now
        ∧ (applySeq r₀ (process env config).updates).rowCount =
            some dataLines.length) := by
  have hrows : (csvRun info.size env.now content).2.1 = dataLines.length := by
    unfold csvRun
    rw [hlines]
    show (dataLines.foldl (csvStep info.size env.now)
      { bytes := header.utf8ByteSize, rows := 0, batchLen := 0, ops := [] }).rows = _
    rw [csvFold_rows]
    exact Nat.zero_add _
  have hproc : processFileInChunks env config info =
      ProcOutcome.ok (csvRun info.size env.now content).1 1
        (csvRun info.size env.now content).2.1
        (csvRun info.size env.now content).2.2 := by
    unfold processFileInChunks
    simp only [hfmt, hcontent]
  have hp : process env config =
      { created := some (createIngestState config.bucket config.key info.size
          config.dagsterRunId (some env.taskSizeEnv) env.now)
        updates := [{ status := IngestStatus.PROCESSING, updates := {}, time := env.now }]
          ++ (csvRun info.size env.now content).2.2 ++
          [{ status := IngestStatus.COMPLETED
             updates := { rowCount := some (csvRun info.size env.now content).2.1
                          metadata := some
                            [("bytesProcessed", (csvRun info.size env.now content).1),
                             ("chunksProcessed", 1), ("durationMs", env.durationMs)] }
             time := env.now }]
        reports := [Report.assetMaterialization (config.bucket ++ "/" ++ config.key),
          Report.success]
        result := { success := true, rowCount := (csvRun info.size env.now content).2.1
                    bytesProcessed := (csvRun info.size env.now content).1
                    chunksProcessed := 1, durationMs := env.durationMs
                    error := none } } := by
    unfold process
    simp only [hinfo, hproc]
  rw [hp]
  refine ⟨rfl, hrows, rfl, ?_⟩
  refine ⟨_, rfl, ?_⟩
  rw [show ([{ status := IngestStatus.PROCESSING, updates := {}, time := env.now }]
      ++ (csvRun info.size env.now content).2.2 ++
      [({ status := IngestStatus.COMPLETED
          updates := { rowCount := some (csvRun info.size env.now content).2.1
                       metadata := some
                         [("bytesProcessed", (csvRun info.size env.now content).1),
                          ("chunksProcessed", 1), ("durationMs", env.durationMs)] }
          time := env.now } : StoreUpdate)])
    = ([{ status := IngestStatus.PROCESSING, updates := {}, time := env.now }]
        ++ (csvRun info.size env.now content).2.2) ++
      [({ status := IngestStatus.COMPLETED
          updates := { rowCount := some (csvRun info.size env.now content).2.1
                       metadata := some
                         [("bytesProcessed", (csvRun info.size env.now content).1),
                          ("chunksProcessed", 1), ("durationMs", env.durationMs)] }
          time := env.now } : StoreUpdate)] from rfl]
  rw [applySeq_append_single]
  refine ⟨updateStatusRecord_status _ _ _ _, ?_, ?_⟩
  · rw [applyUpdate, updateStatusRecord_completedAt]
    rfl
  · rw [applyUpdate, updateStatusRecord_rowCount]
    rw [show mergeField (some (csvRun info.size env.now content).2.1)
        (applySeq (createIngestState config.bucket config.key info.size
          config.dagsterRunId (some env.taskSizeEnv) env.now)
          ([{ status := IngestStatus.PROCESSING, updates := {}, time := env.now }]
            ++ (csvRun info.size env.now content).2.2)).rowCount
      = some (csvRun info.size env.now content).2.1 from rfl]
    rw [hrows]

/-- Witness environment for C9: a three-line CSV (header plus two data
rows). -/
def c9config : WorkerConfig :=
  { bucket := "bkt", key := "board/rows.csv", chunkSizeMB := 10, dagsterRunId := none }

def c9env : WorkerEnv :=
  { fileInfo := Except.ok { size := 24, contentType := some "text/csv" }
    content := Except.ok "name,code\nalice,1\nbob,2\n"
    fetchChunk := fun _ => Except.ok ()
    jsonParse := fun _ => none
    taskSizeEnv := "small"
    now := 200
    durationMs := 3 }

/-- Witness for C9: two data rows are reported for the two non-header
non-blank lines. -/
theorem c9_csv_rowCount_witness :
    (process c9env c9config).result.success = true
    ∧ (process c9env c9config).result.rowCount = (["alice,1", "bob,2"] : List String).length :=
  ⟨(c9_csv_rowCount c9env c9config { size := 24, contentType := some "text/csv" }
      "name,code\nalice,1\nbob,2\n" "name,code" ["alice,1", "bob,2"]
      rfl rfl rfl rfl).1,
   (c9_csv_rowCount c9env c9config { size := 24, contentType := some "text/csv" }
      "name,code\nalice,1\nbob,2\n" "name,code" ["alice,1", "bob,2"]
      rfl rfl rfl rfl).2.1⟩

end Ingestion
